import Mathlib

/-! ClimaAI: the symptom–environment insight engine

A shallow embedding of `src/utils/risk.js`, `src/models/SymptomLog.js`,
`src/controllers/symptom.controller.js`, `src/utils/validation.js`,
`src/services/climate.service.js`, `src/models/User.js` and the handler
`login` of `src/controllers/auth.controller.js`, with the properties of the
specification stated over it.

JavaScript numbers are embedded as rationals. A comparison against a constant
is exact on them. Where the code returns the result of an addition or a
division as a number (the two averages of the summary, the pollen value taken
from the pollen source), the result is rounded to the nearest IEEE 754 double
by `roundDouble`.
-/

namespace ClimaAI

/-! ## JavaScript values reaching a numeric field -/

/-- A value found in a numeric field of an object literal: the field is left
out (`undefined`), is `null`, or holds a number. -/
inductive JsVal where
  | undefined
  | null
  | num (q : ℚ)
deriving DecidableEq

/-- The result of `ToNumber`: `null` becomes `0`, `undefined` becomes `NaN`
(here `none`). -/
def JsVal.toNumber : JsVal → Option ℚ
  | .undefined => none
  | .null => some 0
  | .num q => some q

/-- The test `v >= k` of JavaScript for a numeric constant `k`; a comparison
with `NaN` is false. -/
def JsVal.ge (v : JsVal) (k : ℚ) : Bool :=
  match v.toNumber with
  | some q => decide (k ≤ q)
  | none => false

/-- The test `v <= k` of JavaScript for a numeric constant `k`. -/
def JsVal.le (v : JsVal) (k : ℚ) : Bool :=
  match v.toNumber with
  | some q => decide (q ≤ k)
  | none => false

/-- A destructuring default `{ x = d }`: it applies only when the field is
`undefined`; `null` is kept. -/
def JsVal.withDefault (v : JsVal) (d : ℚ) : JsVal :=
  match v with
  | .undefined => .num d
  | w => w

/-! ## `src/utils/risk.js` -/

/-- The argument object of `computeRisk`. -/
structure Reading where
  AQI : JsVal
  pollen : JsVal
  temperature : JsVal
  humidity : JsVal
deriving DecidableEq

/-- The three risk levels, as the strings `computeRisk` returns. -/
inductive RiskLevel where
  | Low
  | Moderate
  | High
deriving DecidableEq, Repr

/-- The local variable `score` of `computeRisk` when its last `if` is reached
(lines 1-10 of `risk.js`). -/
def riskScore (r : Reading) : Nat :=
  let AQI := r.AQI.withDefault 0
  let pollen := r.pollen.withDefault 0
  let temperature := r.temperature.withDefault 25
  let humidity := r.humidity.withDefault 60
  let score := 0
  let score := if AQI.ge 150 then score + 2 else if AQI.ge 100 then score + 1 else score
  let score := if pollen.ge 3 then score + 2 else if pollen.ge 2 then score + 1 else score
  let score := if temperature.ge 35 || temperature.le 15 then score + 1 else score
  let score := if humidity.le 30 || humidity.ge 80 then score + 1 else score
  score

/-- The function `computeRisk` of `risk.js`. -/
def computeRisk (r : Reading) : RiskLevel :=
  let score := riskScore r
  if score ≥ 4 then .High
  else if score ≥ 2 then .Moderate
  else .Low

/-- A reading whose four fields are all numbers. -/
def Reading.ofNumbers (aqi pollen temperature humidity : ℚ) : Reading :=
  ⟨.num aqi, .num pollen, .num temperature, .num humidity⟩

/-- The additive score in the words of the specification (§4.1). -/
def additiveScore (aqi pollen temperature humidity : ℚ) : Nat :=
  (if 150 ≤ aqi then 2 else if 100 ≤ aqi then 1 else 0)
    + (if 3 ≤ pollen then 2 else if 2 ≤ pollen then 1 else 0)
    + (if 35 ≤ temperature ∨ temperature ≤ 15 then 1 else 0)
    + (if humidity ≤ 30 ∨ 80 ≤ humidity then 1 else 0)

/-! ## `src/models/SymptomLog.js` -/

/-- The trigger vocabulary: the `enum` of `symptoms.triggers` in the schema. -/
inductive Trigger where
  | pollen
  | dust
  | smoke
  | exercise
  | stress
  | weather
  | food
  | medication
  | pollution
  | pet_dander
  | mold
  | other
deriving DecidableEq, Repr

/-- The string stored for a trigger tag. -/
def Trigger.name : Trigger → String
  | .pollen => "pollen"
  | .dust => "dust"
  | .smoke => "smoke"
  | .exercise => "exercise"
  | .stress => "stress"
  | .weather => "weather"
  | .food => "food"
  | .medication => "medication"
  | .pollution => "pollution"
  | .pet_dander => "pet_dander"
  | .mold => "mold"
  | .other => "other"

/-- The `symptoms` sub-document. `wheezing`, `cough` and `attack` are
required; `breathlessness` and `chestTightness` may be absent (`none`).
`peakFlow` is read by none of the functions embedded here and is left out. -/
structure Symptoms where
  wheezing : ℚ
  cough : ℚ
  breathlessness : Option ℚ
  chestTightness : Option ℚ
  attack : Bool
  triggers : List Trigger
deriving DecidableEq

/-- The values of the `severity` field. -/
inductive Severity where
  | mild
  | moderate
  | severe
deriving DecidableEq, Repr

/-- The expression `x || 0` on an optional number: an absent field and the
number `0` are falsy and give `0`. -/
def orZero : Option ℚ → ℚ
  | none => 0
  | some v => if v = 0 then 0 else v

/-- The constant `avgSymptom` of the `severity` default (lines 145-150). -/
def avgSymptom (s : Symptoms) : ℚ :=
  (s.wheezing + s.cough + orZero s.breathlessness + orZero s.chestTightness) / 4

/-- The `default` function of the `severity` path (lines 143-154). -/
def severityDefault (s : Symptoms) : Severity :=
  let avgSymptom := avgSymptom s
  if s.attack || decide (avgSymptom ≥ 7) then .severe
  else if avgSymptom ≥ 4 then .moderate
  else .mild

/-- The expression `this.symptoms.attack || this.severity === "severe"` of the
`followUpRequired` default (line 159) and of the pre-save hook (line 214). -/
def followUpRule (attack : Bool) (severity : Option Severity) : Bool :=
  attack || decide (severity = some .severe)

/-- A `SymptomLog` document. `severity` is `none` while the path is unset.
The paths `notes`, `medication` and `environment` are carried by the store
unread and are left out. -/
structure SymptomLog where
  id : Nat
  userId : Nat
  date : Int
  symptoms : Symptoms
  severity : Option Severity
  followUpRequired : Bool
deriving DecidableEq

/-- The object handed to `SymptomLog.create`. -/
structure LogData where
  userId : Nat
  symptoms : Symptoms
  date : Option Int
  severity : Option Severity
  followUpRequired : Option Bool

/-- Document construction: the given paths are set, then the schema defaults
fill the unset ones in schema order (`date`, `severity`, `followUpRequired`). -/
def construct (newId : Nat) (now : Int) (d : LogData) : SymptomLog :=
  let date := d.date.getD now
  let severity := match d.severity with
    | some s => s
    | none => severityDefault d.symptoms
  let followUpRequired := match d.followUpRequired with
    | some b => b
    | none => followUpRule d.symptoms.attack (some severity)
  { id := newId, userId := d.userId, date := date, symptoms := d.symptoms,
    severity := some severity, followUpRequired := followUpRequired }

/-- The `pre("save")` middleware (lines 195-217). -/
def preSave (doc : SymptomLog) : SymptomLog :=
  let doc :=
    if doc.severity.isNone then
      let avgSymptom :=
        (doc.symptoms.wheezing + doc.symptoms.cough + orZero doc.symptoms.breathlessness
          + orZero doc.symptoms.chestTightness) / 4
      if doc.symptoms.attack || decide (avgSymptom ≥ 7) then
        { doc with severity := some .severe }
      else if avgSymptom ≥ 4 then
        { doc with severity := some .moderate }
      else
        { doc with severity := some .mild }
    else doc
  { doc with followUpRequired := followUpRule doc.symptoms.attack doc.severity }

/-- The test `Number.isInteger`. -/
def isInteger (q : ℚ) : Bool := q.den == 1

/-- The validators of a required symptom level: `min 0`, `max 10`,
`Number.isInteger`. -/
def validLevel (q : ℚ) : Bool :=
  decide (0 ≤ q) && decide (q ≤ 10) && isInteger q

/-- The validators of an optional symptom level: an absent value passes. -/
def validOptLevel : Option ℚ → Bool
  | none => true
  | some q => validLevel q

/-- The schema validators on the paths embedded here: the date is not in the
future and every symptom level is an integer in [0, 10]. -/
def validPaths (now : Int) (date : Int) (s : Symptoms) : Bool :=
  decide (date ≤ now) && validLevel s.wheezing && validLevel s.cough
    && validOptLevel s.breathlessness && validOptLevel s.chestTightness

/-! ## `src/controllers/symptom.controller.js`: the record operations -/

/-- The errors the controller answers with. -/
inductive ApiError where
  | validation
  | notFound
deriving DecidableEq, Repr

/-- The collection of symptom logs. -/
abbrev Store := List SymptomLog

/-- The request body of `createLog` and `updateLog` after the route's
validation middleware (which strips unknown keys, so `severity` and
`followUpRequired` never arrive); `userId` stands for a key the handler of
`updateLog` deletes itself. -/
structure Body where
  symptoms : Symptoms
  date : Option Int
  userId : Option Nat

/-- The handler `createLog`: `SymptomLog.create` builds the document, validates
it, runs the pre-save hook and inserts it. `newId` is the fresh `_id`. -/
def createLog (newId : Nat) (now : Int) (user : Nat) (body : Body) (store : Store) :
    Except ApiError (SymptomLog × Store) :=
  let logData : LogData :=
    { userId := user, symptoms := body.symptoms, date := body.date,
      severity := none, followUpRequired := none }
  let doc := construct newId now logData
  if validPaths now doc.date doc.symptoms then
    let doc := preSave doc
    .ok (doc, store ++ [doc])
  else .error .validation

/-- The update `$set` that `findOneAndUpdate` applies to the matched document:
the keys present in `updates` replace the stored paths, every other path is
kept. No default and no save middleware runs on this path. -/
def applySet (doc : SymptomLog) (updates : Body) : SymptomLog :=
  let doc := { doc with symptoms := updates.symptoms }
  let doc := match updates.date with
    | some d => { doc with date := d }
    | none => doc
  match updates.userId with
    | some u => { doc with userId := u }
    | none => doc

/-- Replace the first document that satisfies `p` by its image under `f`. -/
def replaceFirst (p : SymptomLog → Bool) (f : SymptomLog → SymptomLog) : Store → Store
  | [] => []
  | d :: rest => if p d then f d :: rest else d :: replaceFirst p f rest

/-- The handler `updateLog` (lines 123-147): `userId` is deleted from the
updates, then `findOneAndUpdate({ _id: id, userId }, updates,
{ new: true, runValidators: true })` runs the validators on the updated paths
and returns the updated document. -/
def updateLog (now : Int) (user : Nat) (id : Nat) (body : Body) (store : Store) :
    Except ApiError (SymptomLog × Store) :=
  let updates : Body := { body with userId := none }
  let filter := fun (d : SymptomLog) => d.id == id && d.userId == user
  if validPaths now (updates.date.getD now) updates.symptoms then
    match store.find? filter with
    | some doc => .ok (applySet doc updates, replaceFirst filter (fun d => applySet d updates) store)
    | none => .error .notFound
  else .error .validation

/-! ## `src/controllers/symptom.controller.js`: `getInsights` -/

/-- A `ClimateData` document as `getInsights` reads it: its `createdAt`
timestamp (milliseconds) and its optional `AQI`. -/
structure ClimateData where
  createdAt : Int
  AQI : JsVal
deriving DecidableEq

/-- The callback of `climates.find` (lines 214-217): the first sample whose
`createdAt` is less than four hours from the log's date. -/
def nearestClimate (climates : List ClimateData) (log : SymptomLog) : Option ClimateData :=
  climates.find? (fun c => decide (|c.createdAt - log.date| < 4 * 3600 * 1000))

/-- The variables the AQI loop updates. An item of `aqiCorrelationData` is
kept as its `aqi` value (its `attack` is always `true`). -/
structure AqiAcc where
  highAqiAttacks : Nat
  totalAttacks : Nat
  aqiCorrelationData : List JsVal
deriving DecidableEq

/-- The body of the `logs.forEach` callback of lines 210-223. -/
def aqiStep (climates : List ClimateData) (acc : AqiAcc) (log : SymptomLog) : AqiAcc :=
  if log.symptoms.attack then
    let acc := { acc with totalAttacks := acc.totalAttacks + 1 }
    match nearestClimate climates log with
    | some nearest =>
      let acc := { acc with aqiCorrelationData := acc.aqiCorrelationData ++ [nearest.AQI] }
      if nearest.AQI.ge 100 then { acc with highAqiAttacks := acc.highAqiAttacks + 1 }
      else acc
    | none => acc
  else acc

/-- The AQI loop over the retrieved logs. -/
def aqiLoop (climates : List ClimateData) (logs : List SymptomLog) : AqiAcc :=
  logs.foldl (aqiStep climates) ⟨0, 0, []⟩

/-- The function `Math.round`: the nearest integer, a half rounded up. -/
def mathRound (x : ℚ) : Int := ⌊x + 1 / 2⌋

/-- The object `insights.correlations.aqi`. -/
structure AqiCorrelation where
  highAqiAttackPercentage : Int
  message : String
deriving DecidableEq

/-- The assignment of lines 225-234. -/
def aqiCorrelation (highAqiAttacks totalAttacks : Nat) : AqiCorrelation :=
  { highAqiAttackPercentage :=
      if totalAttacks ≠ 0 then mathRound ((100 * highAqiAttacks : ℚ) / totalAttacks) else 0
    message :=
      if totalAttacks ≠ 0 then
        toString (mathRound ((100 * highAqiAttacks : ℚ) / totalAttacks))
          ++ "% of your attacks occurred when AQI was â‰¥ 100"
      else ("No attacks recorded in this period") }

/-- The statement `triggerCounts[trigger] = (triggerCounts[trigger] || 0) + 1`
on an object whose keys are kept in insertion order: a key already present
has its count raised in place, a new key is added last with count 1. -/
def bumpCount : List (Trigger × Nat) → Trigger → List (Trigger × Nat)
  | [], t => [(t, 1)]
  | (k, n) :: rest, t => if k = t then (k, n + 1) :: rest else (k, n) :: bumpCount rest t

/-- The trigger loop of lines 237-244; `Object.entries` of the result. -/
def triggerCounts (logs : List SymptomLog) : List (Trigger × Nat) :=
  logs.foldl (fun counts log => log.symptoms.triggers.foldl bumpCount counts) []

/-- An item of `triggers.mostCommon`. -/
structure TriggerStat where
  trigger : Trigger
  count : Nat
  percentage : Int
deriving DecidableEq

/-- The order of the comparator `([, a], [, b]) => b - a`: an entry is not
after another when its count is at least the other's. -/
def countGe (x y : Trigger × Nat) : Prop := y.2 ≤ x.2

instance : DecidableRel countGe := fun x y => inferInstanceAs (Decidable (y.2 ≤ x.2))

instance : IsTotal (Trigger × Nat) countGe := ⟨fun x y => Nat.le_total y.2 x.2⟩

instance : IsTrans (Trigger × Nat) countGe := ⟨fun _ _ _ hxy hyz => Nat.le_trans hyz hxy⟩

/-- The list `triggers.mostCommon` (lines 246-255). `Array.prototype.sort` is
a stable sort; it is embedded as the stable insertion sort. -/
def mostCommon (logs : List SymptomLog) : List TriggerStat :=
  (((triggerCounts logs).insertionSort countGe).take 5).map
    (fun e => { trigger := e.1, count := e.2,
                percentage := mathRound ((100 * e.2 : ℚ) / logs.length) })

/-- The values of a recommendation's `type`. -/
inductive RecType where
  | environmental
  | trigger_management
  | medical
deriving DecidableEq, Repr

/-- The values of a recommendation's `priority`. -/
inductive Priority where
  | high
  | medium
deriving DecidableEq, Repr

/-- An item of `insights.recommendations`. -/
structure Recommendation where
  type : RecType
  priority : Priority
  message : String
deriving DecidableEq

/-- The environmental recommendation (lines 288-293). -/
def environmentalRec : Recommendation :=
  { type := .environmental, priority := .high
    message := "Consider checking air quality before going outside and wearing a mask on high AQI days" }

/-- The trigger recommendation (lines 298-302). -/
def triggerRec (topTrigger : TriggerStat) : Recommendation :=
  { type := .trigger_management, priority := .medium
    message := "Your most common trigger is " ++ topTrigger.trigger.name
      ++ ". Consider discussing avoidance strategies with your healthcare provider" }

/-- The medical recommendation (lines 306-311). -/
def medicalRec : Recommendation :=
  { type := .medical, priority := .high
    message := "You've had multiple attacks recently. Please consult with your healthcare provider about your asthma management plan" }

/-- The three `if` statements of lines 287-312, each pushing onto the
recommendation array. -/
def recommend (highAqiAttackPercentage : Int) (mostCommon : List TriggerStat)
    (attackCount : Nat) : List Recommendation :=
  let recommendations : List Recommendation := []
  let recommendations :=
    if highAqiAttackPercentage > 50 then recommendations ++ [environmentalRec]
    else recommendations
  let recommendations :=
    if mostCommon.length > 0 then
      match mostCommon.head? with
      | some topTrigger => recommendations ++ [triggerRec topTrigger]
      | none => recommendations
    else recommendations
  let recommendations :=
    if attackCount > 2 then recommendations ++ [medicalRec]
    else recommendations
  recommendations

/-- The object `insights.summary` (lines 186-199). -/
structure Summary where
  totalLogs : Nat
  attackCount : Nat
  averageWheezing : ℚ
  averageCough : ℚ
  mild : Nat
  moderate : Nat
  severe : Nat
deriving DecidableEq

/-- Rounding to the nearest integer, a half to the even neighbour. -/
def roundHalfEven (x : ℚ) : Int :=
  if x - ⌊x⌋ < 1 / 2 then ⌊x⌋
  else if 1 / 2 < x - ⌊x⌋ then ⌊x⌋ + 1
  else if ⌊x⌋ % 2 = 0 then ⌊x⌋
  else ⌊x⌋ + 1

/-- The binary exponent of the unit in the last place of the double nearest to
`q`: 52 below the binary exponent of `q`, and -1074 in the subnormal range. -/
def ulpExponent (q : ℚ) : Int := max (Int.log 2 |q|) (-1022) - 52

/-- The IEEE 754 double nearest to `q`, a tie going to the even significand:
the number an addition or a division returns when its exact result is `q`.
Overflow to infinity (a result of 2^1024 or more) is not represented. -/
def roundDouble (q : ℚ) : ℚ :=
  roundHalfEven (q / (2 : ℚ) ^ ulpExponent q) * (2 : ℚ) ^ ulpExponent q

/-- The expression `sum / logs.length || 0`: the quotient is a double; with no
log it is `NaN`, which is falsy, as is a quotient of 0. -/
def averageOrZero (sum : ℚ) (n : Nat) : ℚ :=
  if n = 0 then 0
  else if roundDouble (sum / n) = 0 then 0
  else roundDouble (sum / n)

/-- The summary block; each addition of a `reduce` returns a double. -/
def summarize (logs : List SymptomLog) : Summary :=
  { totalLogs := logs.length
    attackCount := (logs.filter (fun l => l.symptoms.attack)).length
    averageWheezing :=
      averageOrZero (logs.foldl (fun sum l => roundDouble (sum + l.symptoms.wheezing)) 0)
        logs.length
    averageCough :=
      averageOrZero (logs.foldl (fun sum l => roundDouble (sum + l.symptoms.cough)) 0)
        logs.length
    mild := (logs.filter (fun l => decide (l.severity = some .mild))).length
    moderate := (logs.filter (fun l => decide (l.severity = some .moderate))).length
    severe := (logs.filter (fun l => decide (l.severity = some .severe))).length }

/-- The `insights` object, without its `trends` block. -/
structure Insights where
  summary : Summary
  aqi : AqiCorrelation
  mostCommon : List TriggerStat
  recommendations : List Recommendation
deriving DecidableEq

/-- The handler `getInsights` on the two query results: `logs` are the user's
logs of the window and `climates` the samples of the window, each in the
order the query returned them. -/
def getInsights (logs : List SymptomLog) (climates : List ClimateData) : Insights :=
  let summary := summarize logs
  let acc := aqiLoop climates logs
  let aqi := aqiCorrelation acc.highAqiAttacks acc.totalAttacks
  let mostCommon := mostCommon logs
  { summary := summary, aqi := aqi, mostCommon := mostCommon
    recommendations := recommend aqi.highAqiAttackPercentage mostCommon summary.attackCount }

/-! ## The quantities the specification names -/

/-- The number `t` of attack entries of a history. -/
def attackTotal (logs : List SymptomLog) : Nat :=
  (logs.filter (fun l => l.symptoms.attack)).length

/-- Whether the sample joined to an entry exists and has `AQI >= 100`. -/
def joinedHighAqi (climates : List ClimateData) (log : SymptomLog) : Bool :=
  match nearestClimate climates log with
  | some c => c.AQI.ge 100
  | none => false

/-- The number `h` of attack entries whose joined sample has `AQI >= 100`. -/
def highAqiAttackTotal (climates : List ClimateData) (logs : List SymptomLog) : Nat :=
  (logs.filter (fun l => l.symptoms.attack && joinedHighAqi climates l)).length

/-- The trigger tags of a history in the order the entries are processed. -/
def loggedTriggers (logs : List SymptomLog) : List Trigger :=
  logs.flatMap (fun l => l.symptoms.triggers)

/-- The count an insertion-ordered count table holds for a key, 0 when the
key is absent. -/
def countOf : List (Trigger × Nat) → Trigger → Nat
  | [], _ => 0
  | (k, n) :: rest, t => if k = t then n else countOf rest t

/-- An attack entry at the given time, with no symptoms recorded. -/
def attackAt (date : Int) : SymptomLog :=
  ⟨1, 7, date, ⟨0, 0, none, none, true, []⟩, some .severe, true⟩

/-- An entry without attack carrying the given triggers. -/
def entryWith (triggers : List Trigger) : SymptomLog :=
  ⟨1, 7, 0, ⟨0, 0, none, none, false, triggers⟩, some .mild, false⟩

/-! ## The virtual `overallScore` of `src/models/SymptomLog.js` -/

/-- The truthiness test `if (x)` on an optional number: an absent field and
the number `0` are falsy. -/
def truthy : Option ℚ → Bool
  | none => false
  | some v => decide (v ≠ 0)

/-- The getter of the virtual `overallScore` (lines 178-185). -/
def overallScore (s : Symptoms) : ℚ :=
  let score := s.wheezing + s.cough
  let score := if truthy s.breathlessness then score + s.breathlessness.getD 0 else score
  let score := if truthy s.chestTightness then score + s.chestTightness.getD 0 else score
  let score := if s.attack then score + 5 else score
  min score 10

/-- The number of entries whose trigger collection contains a tag. -/
def entriesContaining (logs : List SymptomLog) (t : Trigger) : Nat :=
  logs.countP (fun l => decide (t ∈ l.symptoms.triggers))

/-! ## `src/controllers/symptom.controller.js`: the time patterns of `getInsights` -/

/-- The local-time readings `getHours()` and `getDay()` of a `Date` given in
milliseconds. They depend on the time zone of the process and are taken as
parameters; their ranges are those of the language. -/
structure Clock where
  getHours : Int → Fin 24
  getDay : Int → Fin 7

/-- The readings in the UTC time zone (1 January 1970 was a Thursday). -/
def utcClock : Clock where
  getHours := fun ms => Fin.ofNat (ms / 3600000 % 24).toNat
  getDay := fun ms => Fin.ofNat ((ms / 86400000 + 4) % 7).toNat

/-- The statement `pattern[i]++` on an array of counters. -/
def bumpAt : List Nat → Nat → List Nat
  | [], _ => []
  | c :: rest, 0 => (c + 1) :: rest
  | c :: rest, i + 1 => c :: bumpAt rest i

/-- The array `hourlyPattern` after the loop of lines 261-265. -/
def hourlyPattern (clock : Clock) (logs : List SymptomLog) : List Nat :=
  logs.foldl (fun pattern log => bumpAt pattern (clock.getHours log.date)) (List.replicate 24 0)

/-- The array `dailyPattern` after the loop of lines 261-265. -/
def dailyPattern (clock : Clock) (logs : List SymptomLog) : List Nat :=
  logs.foldl (fun pattern log => bumpAt pattern (clock.getDay log.date)) (List.replicate 7 0)

/-- The method `Array.prototype.map` with a callback of two arguments, the
element and its index; `start` is the index of the first element. -/
def mapWithIndex {α β : Type} (f : α → Nat → β) (start : Nat) : List α → List β
  | [] => []
  | a :: rest => f a start :: mapWithIndex f (start + 1) rest

/-- An item of `peakHours`. -/
structure HourStat where
  hour : Nat
  count : Nat
deriving DecidableEq, Repr

/-- An item of `peakDays`. -/
structure DayStat where
  day : String
  count : Nat
deriving DecidableEq, Repr

/-- The order of the comparator `(a, b) => b.count - a.count`, for a reading
`cnt` of the count: an item is not after another when its count is at least
the other's. -/
def byCount {β : Type} (cnt : β → Nat) (x y : β) : Prop := cnt y ≤ cnt x

instance {β : Type} (cnt : β → Nat) : DecidableRel (byCount cnt) :=
  fun x y => inferInstanceAs (Decidable (cnt y ≤ cnt x))

instance {β : Type} (cnt : β → Nat) : IsTotal β (byCount cnt) :=
  ⟨fun x y => Nat.le_total (cnt y) (cnt x)⟩

instance {β : Type} (cnt : β → Nat) : IsTrans β (byCount cnt) :=
  ⟨fun _ _ _ hxy hyz => Nat.le_trans hyz hxy⟩

/-- The array `hourlyPattern.map((count, hour) => ({ hour, count }))`. -/
def hourItems (clock : Clock) (logs : List SymptomLog) : List HourStat :=
  mapWithIndex (fun count hour => ({ hour := hour, count := count } : HourStat)) 0
    (hourlyPattern clock logs)

/-- The list `peakHours` (lines 268-271): the counters with their hour, sorted
by the stable sort and cut to three items. -/
def peakHours (clock : Clock) (logs : List SymptomLog) : List HourStat :=
  ((hourItems clock logs).insertionSort (byCount HourStat.count)).take 3

/-- The array of day names of lines 272-280. -/
def dayNames : List String :=
  ["Sunday", "Monday", "Tuesday", "Wednesday", "Thursday", "Friday", "Saturday"]

/-- The array of the day names mapped by
`(day, index) => ({ day, count: dailyPattern[index] })`. -/
def dayItems (clock : Clock) (logs : List SymptomLog) : List DayStat :=
  mapWithIndex (fun day index =>
      ({ day := day, count := (dailyPattern clock logs).getD index 0 } : DayStat)) 0
    dayNames

/-- The list `peakDays` (lines 272-283): the day names with the counter of
their index, sorted by the stable sort and cut to three items. -/
def peakDays (clock : Clock) (logs : List SymptomLog) : List DayStat :=
  ((dayItems clock logs).insertionSort (byCount DayStat.count)).take 3

/-- The number of entries whose local hour of day is `h`. -/
def entriesAtHour (clock : Clock) (logs : List SymptomLog) (h : Nat) : Nat :=
  logs.countP (fun l => decide ((clock.getHours l.date : Nat) = h))

/-- The number of entries whose local day of week is `d` (Sunday is 0). -/
def entriesOnDay (clock : Clock) (logs : List SymptomLog) (d : Nat) : Nat :=
  logs.countP (fun l => decide ((clock.getDay l.date : Nat) = d))

/-- An entry without attack with the given wheezing and cough. -/
def entryLevels (wheezing cough : ℚ) : SymptomLog :=
  ⟨1, 7, 0, ⟨wheezing, cough, none, none, false, []⟩, some .mild, false⟩

/-- An entry without attack at the given time. -/
def entryAt (date : Int) : SymptomLog :=
  ⟨1, 7, date, ⟨0, 0, none, none, false, []⟩, some .mild, false⟩

/-! ## `src/controllers/symptom.controller.js`: `deleteLog` -/

/-- The handler `deleteLog` (lines 149-165): `findOneAndDelete({ _id: id,
userId })` removes the first document of that id and owner, and the handler
throws `NotFoundError` when there is none. -/
def deleteLog (user : Nat) (id : Nat) (store : Store) : Except ApiError Store :=
  let filter := fun (d : SymptomLog) => d.id == id && d.userId == user
  match store.find? filter with
  | some _ => .ok (store.eraseP filter)
  | none => .error .notFound

/-- The collection after a call of `updateLog`: the one it wrote when it
succeeded, the one it found when it threw. -/
def storeAfterUpdate (now : Int) (user : Nat) (id : Nat) (body : Body) (store : Store) : Store :=
  match updateLog now user id body store with
  | .ok (_, store') => store'
  | .error _ => store

/-- The collection after a call of `deleteLog`. -/
def storeAfterDelete (user : Nat) (id : Nat) (store : Store) : Store :=
  match deleteLog user id store with
  | .ok store' => store'
  | .error _ => store

/-! ## `src/utils/validation.js`: `symptomLogSchema` and `validate` -/

/-- A value submitted under a key that the schema declares as a number: the
key is absent, or holds a number, or a string that the validator converts to
a number (`convert: true`), or anything else (`null`, another string, a
boolean, an object, an array). -/
inductive RawNum where
  | absent
  | number (q : ℚ)
  | numericString (q : ℚ)
  | other
deriving DecidableEq

/-- A value submitted under a key declared as a boolean; `bool` stands for a
boolean and for a string converted to one. -/
inductive RawBool where
  | absent
  | bool (b : Bool)
  | other
deriving DecidableEq

/-- An item of a submitted `triggers` array. -/
inductive RawItem where
  | str (s : String)
  | other
deriving DecidableEq

/-- A value submitted under `triggers`. -/
inductive RawArray where
  | absent
  | array (items : List RawItem)
  | other
deriving DecidableEq

/-- A value submitted under `notes`: a string is kept as its length. -/
inductive RawText where
  | absent
  | text (length : Nat)
  | other
deriving DecidableEq

/-- A value submitted under `date`: `date` stands for a value that converts
to the given instant. -/
inductive RawDate where
  | absent
  | date (ms : Int)
  | other
deriving DecidableEq

/-- The keys of a submitted `symptoms` object that the schema knows; unknown
keys are stripped. -/
structure RawSymptoms where
  wheezing : RawNum
  cough : RawNum
  attack : RawBool
  breathlessness : RawNum
  chestTightness : RawNum
  triggers : RawArray
deriving DecidableEq

/-- A value submitted under `symptoms`. -/
inductive RawObject (α : Type) where
  | absent
  | object (fields : α)
  | other
deriving DecidableEq

/-- The keys of a submitted `location` object. -/
structure RawLocation where
  lat : RawNum
  lon : RawNum
deriving DecidableEq

/-- The keys of a request body that the schema knows. -/
structure RawBody where
  symptoms : RawObject RawSymptoms
  notes : RawText
  date : RawDate
  location : RawObject RawLocation
deriving DecidableEq

/-- The message of an error detail: a text given by `.messages(...)` in the
schema, or the text of the library for an error code. -/
inductive Message where
  | custom (text : String)
  | standard (code : String)
deriving DecidableEq

/-- An item of the `details` array that `validate` answers with. -/
structure Detail where
  field : String
  message : Message
deriving DecidableEq

/-- The number a submitted value is validated as, if any. -/
def RawNum.value : RawNum → Option ℚ
  | .number q => some q
  | .numericString q => some q
  | _ => none

/-- The errors of a number under the rules `.integer().min(lo).max(hi)`, with
all errors collected (`abortEarly: false`); `minMax` is the message of the
two bound rules. A number outside the safe integer range fails before the
rules. -/
def numberRuleErrors (path : String) (integer : Bool) (lo hi : ℚ) (minMax : Message × Message)
    (q : ℚ) : List Detail :=
  if q < -9007199254740991 ∨ 9007199254740991 < q then [⟨path, .standard "number.unsafe"⟩]
  else
    (if integer && !isInteger q then [⟨path, .standard "number.integer"⟩] else [])
      ++ (if q < lo then [⟨path, minMax.1⟩] else [])
      ++ (if hi < q then [⟨path, minMax.2⟩] else [])

/-- The errors of a key declared as a number. -/
def numberErrors (path : String) (required : Option Message) (integer : Bool) (lo hi : ℚ)
    (minMax : Message × Message) : RawNum → List Detail
  | .absent =>
    match required with
    | some m => [⟨path, m⟩]
    | none => []
  | .other => [⟨path, .standard "number.base"⟩]
  | .number q => numberRuleErrors path integer lo hi minMax q
  | .numericString q => numberRuleErrors path integer lo hi minMax q

/-- The values `.valid(...)` allows for an item of `triggers` in
`symptomLogSchema`. -/
def validTriggerNames : List String :=
  ["pollen", "dust", "smoke", "exercise", "stress", "weather", "other"]

/-- The errors of the items of `triggers`, from the index `start` on. With
all errors collected, an item outside the allowed values gets `any.only` and
the validation goes on to the rules of a string: an empty string gets
`string.empty` as well, and an item that is no string `string.base`. -/
def itemErrors (start : Nat) : List RawItem → List Detail
  | [] => []
  | .str s :: rest =>
    (if s ∈ validTriggerNames then []
      else if s = "" then
        [⟨"symptoms.triggers." ++ toString start, .standard "any.only"⟩,
          ⟨"symptoms.triggers." ++ toString start, .standard "string.empty"⟩]
      else [⟨"symptoms.triggers." ++ toString start, .standard "any.only"⟩])
      ++ itemErrors (start + 1) rest
  | .other :: rest =>
    ⟨"symptoms.triggers." ++ toString start, .standard "any.only"⟩
      :: ⟨"symptoms.triggers." ++ toString start, .standard "string.base"⟩
      :: itemErrors (start + 1) rest

/-- The errors of the `symptoms` object, key by key in the order of the
schema (lines 54-71). -/
def symptomsErrors (s : RawSymptoms) : List Detail :=
  numberErrors "symptoms.wheezing" (some (.custom "Wheezing level is required")) true 0 10
      (.custom "Wheezing level must be between 0 and 10",
        .custom "Wheezing level must be between 0 and 10") s.wheezing
    ++ numberErrors "symptoms.cough" (some (.custom "Cough level is required")) true 0 10
      (.custom "Cough level must be between 0 and 10",
        .custom "Cough level must be between 0 and 10") s.cough
    ++ (match s.attack with
        | .absent => [⟨"symptoms.attack", .custom "Attack status is required"⟩]
        | .other => [⟨"symptoms.attack", .standard "boolean.base"⟩]
        | .bool _ => [])
    ++ numberErrors "symptoms.breathlessness" none true 0 10
      (.standard "number.min", .standard "number.max") s.breathlessness
    ++ numberErrors "symptoms.chestTightness" none true 0 10
      (.standard "number.min", .standard "number.max") s.chestTightness
    ++ (match s.triggers with
        | .absent => []
        | .other => [⟨"symptoms.triggers", .standard "array.base"⟩]
        | .array items => itemErrors 0 items)

/-- The errors of a request body under `symptomLogSchema` (lines 53-78), key
by key in the order of the schema. -/
def bodyErrors (now : Int) (raw : RawBody) : List Detail :=
  (match raw.symptoms with
    | .absent => [⟨"symptoms", .standard "any.required"⟩]
    | .other => [⟨"symptoms", .standard "object.base"⟩]
    | .object s => symptomsErrors s)
    ++ (match raw.notes with
        | .absent => []
        | .other => [⟨"notes", .standard "string.base"⟩]
        | .text n =>
          if n = 0 then [⟨"notes", .standard "string.empty"⟩]
          else if 500 < n then [⟨"notes", .standard "string.max"⟩]
          else [])
    ++ (match raw.date with
        | .absent => []
        | .other => [⟨"date", .standard "date.base"⟩]
        | .date ms => if now < ms then [⟨"date", .standard "date.max"⟩] else [])
    ++ (match raw.location with
        | .absent => []
        | .other => [⟨"location", .standard "object.base"⟩]
        | .object l =>
          numberErrors "location.lat" none false (-90) 90
              (.standard "number.min", .standard "number.max") l.lat
            ++ numberErrors "location.lon" none false (-180) 180
              (.standard "number.min", .standard "number.max") l.lon)

/-- The trigger tag of a valid name. -/
def Trigger.ofName (s : String) : Option Trigger :=
  [Trigger.pollen, .dust, .smoke, .exercise, .stress, .weather, .food, .medication,
    .pollution, .pet_dander, .mold, .other].find? (fun t => t.name == s)

/-- The validated value the handlers read: the converted `symptoms` and
`date`. It is read only when there is no error. -/
def cleanBody (raw : RawBody) : Option Body :=
  match raw.symptoms with
  | .object s =>
    match s.wheezing.value, s.cough.value, s.attack with
    | some w, some c, .bool a =>
      some
        { symptoms :=
            { wheezing := w, cough := c, breathlessness := s.breathlessness.value,
              chestTightness := s.chestTightness.value, attack := a,
              triggers := match s.triggers with
                | .array items => items.filterMap (fun i =>
                    match i with
                    | .str name => Trigger.ofName name
                    | .other => none)
                | _ => [] }
          date := match raw.date with
            | .date ms => some ms
            | _ => none
          userId := none }
    | _, _, _ => none
  | _ => none

/-- The answer of the middleware when it does not call `next`. -/
structure Rejection where
  status : Nat
  error : String
  details : List Detail
deriving DecidableEq

/-- The middleware `validate(symptomLogSchema)` (lines 110-133): with an error
it answers 400 and returns; without it replaces the body by the validated
value and calls `next`. -/
def validate (now : Int) (raw : RawBody) : Except Rejection Body :=
  let details := bodyErrors now raw
  if details ≠ [] then .error ⟨400, "Validation failed", details⟩
  else
    match cleanBody raw with
    | some body => .ok body
    | none => .error ⟨400, "Validation failed", details⟩

/-- What a route answers: the rejection of the middleware, or the result of
the handler it went on to. -/
inductive RouteResult (α : Type) where
  | rejected (r : Rejection)
  | handled (result : Except ApiError α)

/-- The route `POST /log`: `validate(symptomLogSchema)`, then `createLog`. -/
def postLog (newId : Nat) (now : Int) (user : Nat) (raw : RawBody) (store : Store) :
    RouteResult (SymptomLog × Store) :=
  match validate now raw with
  | .error r => .rejected r
  | .ok body => .handled (createLog newId now user body store)

/-- The route `PATCH /log/:id`: `validate(symptomLogSchema)`, then
`updateLog`. -/
def patchLog (now : Int) (user : Nat) (id : Nat) (raw : RawBody) (store : Store) :
    RouteResult (SymptomLog × Store) :=
  match validate now raw with
  | .error r => .rejected r
  | .ok body => .handled (updateLog now user id body store)

/-- A submitted level that is missing, not an integer, below 0 or above 10;
a value that is no number at all is not an integer. -/
def badLevel : RawNum → Bool
  | .absent => true
  | .other => true
  | .number q => !isInteger q || decide (q < 0) || decide (10 < q)
  | .numericString q => !isInteger q || decide (q < 0) || decide (10 < q)

/-- A collection holding one entry, of id 1 and owner 8. -/
def otherUsersStore : Store :=
  [⟨1, 8, 0, ⟨2, 3, none, none, false, []⟩, some .mild, false⟩]

/-- A request body that passes the validators: wheezing 10, cough 10, attack. -/
def severeBody : Body :=
  ⟨⟨10, 10, none, none, true, []⟩, none, some 7⟩

/-- The value a body holds at the path `symptoms.wheezing`: absent when there
is no `symptoms` object. -/
def RawBody.wheezing (raw : RawBody) : RawNum :=
  match raw.symptoms with
  | .object s => s.wheezing
  | _ => .absent

/-- The value a body holds at the path `symptoms.cough`. -/
def RawBody.cough (raw : RawBody) : RawNum :=
  match raw.symptoms with
  | .object s => s.cough
  | _ => .absent

/-- The fields named by the details of a rejection, none when the middleware
called `next`. -/
def rejectedFields : Except Rejection Body → List String
  | .error r => r.details.map (fun d => d.field)
  | .ok _ => []

/-- A body whose `wheezing` is above 10 and whose `cough` is missing. -/
def badBody : RawBody :=
  ⟨.object ⟨.number 11, .absent, .bool false, .absent, .absent, .absent⟩, .absent, .absent,
    .absent⟩

/-- A well-formed body: wheezing 8, cough 8, no attack, pollen as trigger. -/
def goodBody : RawBody :=
  ⟨.object ⟨.number 8, .numericString 8, .bool false, .absent, .absent,
      .array [.str "pollen"]⟩, .absent, .absent, .absent⟩

/-! ## The virtual `riskLevel` of `src/models/SymptomLog.js` -/

/-- The values of the virtual `riskLevel` of a symptom log. -/
inductive EntryRisk where
  | low
  | medium
  | high
deriving DecidableEq, Repr

/-- The getter of the virtual `riskLevel` (lines 188-192). -/
def entryRiskLevel (s : Symptoms) : EntryRisk :=
  if s.attack || decide (overallScore s ≥ 8) then .high
  else if overallScore s ≥ 5 then .medium
  else .low

/-- The order Low < Moderate < High of the environmental risk levels. -/
def RiskLevel.rank : RiskLevel → Nat
  | .Low => 0
  | .Moderate => 1
  | .High => 2

/-! ## `src/services/climate.service.js` -/

/-- The test `v > k` of JavaScript for a numeric constant `k`. -/
def JsVal.gt (v : JsVal) (k : ℚ) : Bool :=
  match v.toNumber with
  | some q => decide (k < q)
  | none => false

/-- The test `v < k` of JavaScript for a numeric constant `k`. -/
def JsVal.lt (v : JsVal) (k : ℚ) : Bool :=
  match v.toNumber with
  | some q => decide (q < k)
  | none => false

/-- The test `!v`: `undefined`, `null` and the number `0` are falsy. -/
def JsVal.isFalsy : JsVal → Bool
  | .undefined => true
  | .null => true
  | .num q => decide (q = 0)

/-- The expression `v ?? null`. -/
def JsVal.orNull : JsVal → JsVal
  | .undefined => .null
  | w => w

/-- The expression `v ?? 0` read as a number. -/
def JsVal.orZero : JsVal → ℚ
  | .num q => q
  | _ => 0

/-- The function `estimatePollenFromWeather` (lines 5-15). -/
def estimatePollenFromWeather (temperature humidity : JsVal) : ℚ :=
  if temperature.isFalsy || humidity.isFalsy then 0
  else
    let risk : ℚ := 0
    let risk :=
      if temperature.ge 15 && temperature.le 25 then risk + 2
      else if temperature.gt 25 && temperature.le 30 then risk + 3 / 2
      else if temperature.gt 30 || temperature.lt 10 then risk + 1 / 2
      else risk
    let risk :=
      if humidity.ge 30 && humidity.le 50 then risk + 2
      else if humidity.gt 50 && humidity.le 70 then risk + 1
      else if humidity.gt 70 then risk + 1 / 2
      else risk
    min 5 risk

/-- The first record of the pollen source's answer, as the code reads it. -/
structure PollenCounts where
  grass_pollen : JsVal
  tree_pollen : JsVal
  weed_pollen : JsVal
deriving DecidableEq

/-- The pollen value of lines 43-46: the three counts, each `?? 0`, summed
from the left and divided by 3, each operation returning a double. -/
def pollenFromCounts (pollenCounts : PollenCounts) : ℚ :=
  let totalRisk :=
    roundDouble
      (roundDouble (pollenCounts.grass_pollen.orZero + pollenCounts.tree_pollen.orZero)
        + pollenCounts.weed_pollen.orZero)
  roundDouble (totalRisk / 3)

/-- The outcome of a request to a data source: its answer, or an exception. -/
inductive Fetch (α : Type) where
  | ok (data : α)
  | failed

/-- What the code reads of the answers of the weather and the AQI source:
`main.temp`, `main.humidity` and `data.aqi`. -/
structure WeatherData where
  temp : JsVal
  humidity : JsVal
  aqi : JsVal
deriving DecidableEq

/-- The numeric paths and the risk level of the document that
`fetchCurrentConditions` stores (lines 23-66). `weather` is the outcome of the
two requests awaited together, `pollenKey` tells whether `POLLEN_API_KEY` is
set, and `pollenSource` is the outcome of the request to the pollen source. -/
def fetchCurrentConditions (weather : Fetch WeatherData) (pollenKey : Bool)
    (pollenSource : Fetch PollenCounts) : Reading × RiskLevel :=
  let reading : Reading :=
    match weather with
    | .failed => { AQI := .null, pollen := .null, temperature := .null, humidity := .null }
    | .ok w =>
      let temperature := w.temp.orNull
      let humidity := w.humidity.orNull
      let AQI := w.aqi.orNull
      let pollen : ℚ :=
        if pollenKey then
          match pollenSource with
          | .ok pollenCounts => pollenFromCounts pollenCounts
          | .failed => estimatePollenFromWeather temperature humidity
        else estimatePollenFromWeather temperature humidity
      { AQI := AQI, pollen := .num pollen, temperature := temperature, humidity := humidity }
  (reading, computeRisk reading)

/-! ## `src/models/User.js` and the handler `login` -/

/-- The paths of a `User` document that the login code reads or writes.
`loginAttempts` and `lockUntil` are `none` while unset. -/
structure User where
  passwordHash : String
  lastLogin : Option Int
  loginAttempts : Option Nat
  lockUntil : Option Int
deriving DecidableEq

/-- The getter of the virtual `isLocked` (lines 147-149), at the time `now`. -/
def User.isLocked (now : Int) (u : User) : Bool :=
  match u.lockUntil with
  | some t => decide (t > now)
  | none => false

/-- The method `incLoginAttempts` (lines 171-188) as the update it sends: an
expired lock restarts the count at 1; otherwise the count is incremented and,
when it reaches 5 on an account that is not locked, `lockUntil` is set two
hours ahead. -/
def incLoginAttempts (now : Int) (u : User) : User :=
  let expired := match u.lockUntil with
    | some t => decide (t < now)
    | none => false
  if expired then { u with lockUntil := none, loginAttempts := some 1 }
  else
    let incremented := { u with loginAttempts := some (u.loginAttempts.getD 0 + 1) }
    let reaches := match u.loginAttempts with
      | some n => decide (n + 1 ≥ 5)
      | none => false
    if reaches && !u.isLocked now then
      { incremented with lockUntil := some (now + 2 * 60 * 60 * 1000) }
    else incremented

/-- The error `login` throws. -/
inductive AuthError where
  | invalidCredentials
deriving DecidableEq, Repr

/-- The handler `login` (lines 88-130) on the account found for the email, if
any: `compare` stands for `bcrypt.compare`. The handler throws when there is
no account or the password does not match; otherwise it sets `lastLogin` and
saves (the pre-save hook of the user returns at once, `loginAttempts` being
unmodified). -/
def login (compare : String → String → Bool) (now : Int) (password : String)
    (account : Option User) : Except AuthError User :=
  match account with
  | none => .error .invalidCredentials
  | some user =>
    if !compare password user.passwordHash then .error .invalidCredentials
    else .ok { user with lastLogin := some now }

/-- The account after a call of `login`: the saved one when the handler
succeeded, the one found when it threw. -/
def accountAfterLogin (compare : String → String → Bool) (now : Int) (password : String)
    (account : Option User) : Option User :=
  match login compare now password account with
  | .ok user => some user
  | .error _ => account

/-- The account after login attempts with one password at the given times. -/
def accountAfterLogins (compare : String → String → Bool) (password : String)
    (times : List Int) (account : Option User) : Option User :=
  times.foldl (fun acc now => accountAfterLogin compare now password acc) account

/-- A password check for examples: the hash is the password itself. -/
def plainCompare (password hash : String) : Bool := password == hash

/-- An account with no failed attempt and no lock. -/
def freshAccount : User :=
  { passwordHash := "secret", lastLogin := none, loginAttempts := some 0, lockUntil := none }

/-! ## Properties of `computeRisk` -/

@[simp] theorem JsVal.ge_num (q k : ℚ) : (JsVal.num q).ge k = decide (k ≤ q) := rfl

@[simp] theorem JsVal.le_num (q k : ℚ) : (JsVal.num q).le k = decide (q ≤ k) := rfl

@[simp] theorem JsVal.withDefault_num (q d : ℚ) : (JsVal.num q).withDefault d = .num q := rfl

@[simp] theorem JsVal.withDefault_undefined (d : ℚ) : JsVal.undefined.withDefault d = .num d := rfl

/-- On four numbers the score the code accumulates is the additive score of
the specification. -/
theorem riskScore_ofNumbers (aqi pollen temperature humidity : ℚ) :
    riskScore (Reading.ofNumbers aqi pollen temperature humidity)
      = additiveScore aqi pollen temperature humidity := by
  simp only [riskScore, Reading.ofNumbers, additiveScore, JsVal.withDefault_num, JsVal.ge_num,
    JsVal.le_num, Bool.or_eq_true, decide_eq_true_eq, Nat.zero_add]
  by_cases h1 : (150 : ℚ) ≤ aqi <;> by_cases h2 : (100 : ℚ) ≤ aqi <;>
  by_cases h3 : (3 : ℚ) ≤ pollen <;> by_cases h4 : (2 : ℚ) ≤ pollen <;>
  by_cases h5 : (35 : ℚ) ≤ temperature ∨ temperature ≤ 15 <;>
  by_cases h6 : humidity ≤ 30 ∨ (80 : ℚ) ≤ humidity <;>
  simp [h1, h2, h3, h4, h5, h6]

/-- A field that is left out is read as its neutral default. -/
theorem riskScore_withDefaults (r : Reading) :
    riskScore r = riskScore ⟨r.AQI.withDefault 0, r.pollen.withDefault 0,
      r.temperature.withDefault 25, r.humidity.withDefault 60⟩ := by
  obtain ⟨a, p, t, h⟩ := r
  cases a <;> cases p <;> cases t <;> cases h <;> rfl

/-- C1: for every numeric AQI, pollen, temperature and humidity the score that
`computeRisk` accumulates is the additive score of the specification, and the
level returned is High when that score is at least 4, Moderate when it is 2 or
3, and Low when it is 0 or 1. -/
theorem computeRisk_ofNumbers (aqi pollen temperature humidity : ℚ) :
    riskScore (Reading.ofNumbers aqi pollen temperature humidity)
        = additiveScore aqi pollen temperature humidity
      ∧ computeRisk (Reading.ofNumbers aqi pollen temperature humidity)
        = (if 4 ≤ additiveScore aqi pollen temperature humidity then RiskLevel.High
           else if additiveScore aqi pollen temperature humidity = 2
             ∨ additiveScore aqi pollen temperature humidity = 3 then RiskLevel.Moderate
           else RiskLevel.Low)
      ∧ (additiveScore aqi pollen temperature humidity < 2
          ↔ additiveScore aqi pollen temperature humidity = 0
            ∨ additiveScore aqi pollen temperature humidity = 1) := by
  refine ⟨riskScore_ofNumbers _ _ _ _, ?_, by omega⟩
  simp only [computeRisk, riskScore_ofNumbers, ge_iff_le]
  split_ifs <;> first | rfl | omega

/-- C6, the code at the failing input: a reading whose four fields are `null`,
as `fetchCurrentConditions` passes them when its data source is unavailable,
scores 2 and is classified Moderate, while the reading of the four neutral
values scores 0 and is classified Low. -/
theorem computeRisk_all_null :
    riskScore ⟨.null, .null, .null, .null⟩ = 2
      ∧ computeRisk ⟨.null, .null, .null, .null⟩ = .Moderate
      ∧ computeRisk (Reading.ofNumbers 0 0 25 60) = .Low := by
  decide

/-- A reading with fields left out (not `null`) is classified as the reading
with the neutral values in their place; with all four left out it is Low. -/
theorem computeRisk_left_out (r : Reading) :
    computeRisk r = computeRisk ⟨r.AQI.withDefault 0, r.pollen.withDefault 0,
        r.temperature.withDefault 25, r.humidity.withDefault 60⟩
      ∧ computeRisk ⟨.undefined, .undefined, .undefined, .undefined⟩ = .Low := by
  refine ⟨?_, by decide⟩
  simp only [computeRisk]
  rw [← riskScore_withDefaults]

/-- C7, against the claim as written: with the other inputs neutral the score
is 0 at AQI 0 and 1 at AQI 149, so AQI 149 does contribute to the score. -/
theorem riskScore_aqi_149_contributes :
    riskScore (Reading.ofNumbers 0 0 25 60) = 0
      ∧ ¬ riskScore (Reading.ofNumbers 149 0 25 60) = 0 := by
  decide

/-- C7, amended: with the other three inputs neutral, AQI 99 contributes
nothing, AQI 149 contributes 1 and AQI 150 contributes 2; pollen 2 contributes
1 and pollen 3 contributes 2; temperatures 15 and 35 contribute 1 each;
humidities 30 and 80 contribute 1 each. -/
theorem riskScore_boundaries :
    riskScore (Reading.ofNumbers 99 0 25 60) = 0
      ∧ riskScore (Reading.ofNumbers 149 0 25 60) = 1
      ∧ riskScore (Reading.ofNumbers 150 0 25 60) = 2
      ∧ riskScore (Reading.ofNumbers 0 2 25 60) = 1
      ∧ riskScore (Reading.ofNumbers 0 3 25 60) = 2
      ∧ riskScore (Reading.ofNumbers 0 0 15 60) = 1
      ∧ riskScore (Reading.ofNumbers 0 0 35 60) = 1
      ∧ riskScore (Reading.ofNumbers 0 0 25 30) = 1
      ∧ riskScore (Reading.ofNumbers 0 0 25 80) = 1 := by
  decide

/-! ## Properties of the severity and follow-up rules -/

theorem orZero_eq_getD (x : Option ℚ) : orZero x = x.getD 0 := by
  cases x with
  | none => rfl
  | some v =>
    by_cases h : v = 0
    · simp [orZero, h]
    · simp [orZero, h]

/-- C2: the derived severity is severe when `attack` is true or the sum of
wheezing, cough, breathlessness and chest tightness divided by 4 is at least
7, otherwise moderate when that average is at least 4, otherwise mild; an
absent optional field counts as 0 and the divisor is 4 whatever is absent, so
wheezing 8 and cough 8 alone, without attack, average 4 and give moderate. -/
theorem severityDefault_rule (s : Symptoms) :
    severityDefault s
        = (if s.attack = true
              ∨ 7 ≤ (s.wheezing + s.cough + s.breathlessness.getD 0 + s.chestTightness.getD 0) / 4
            then Severity.severe
           else if 4 ≤ (s.wheezing + s.cough + s.breathlessness.getD 0
              + s.chestTightness.getD 0) / 4
            then Severity.moderate
           else Severity.mild)
      ∧ avgSymptom ⟨8, 8, none, none, false, []⟩ = 4
      ∧ severityDefault ⟨8, 8, none, none, false, []⟩ = .moderate := by
  refine ⟨?_, ?_, ?_⟩
  · simp only [severityDefault, avgSymptom, orZero_eq_getD, ge_iff_le, Bool.or_eq_true,
      decide_eq_true_eq]
  · norm_num [avgSymptom, orZero]
  · norm_num [severityDefault, avgSymptom, orZero]

/-- The pre-save hook leaves the symptoms as they are. -/
theorem preSave_symptoms (doc : SymptomLog) : (preSave doc).symptoms = doc.symptoms := by
  unfold preSave
  dsimp only
  split_ifs <;> rfl

/-- The follow-up flag the pre-save hook stores is the follow-up rule on the
attack flag and the severity it stores. -/
theorem preSave_followUp (doc : SymptomLog) :
    (preSave doc).followUpRequired
      = followUpRule (preSave doc).symptoms.attack (preSave doc).severity := rfl

/-- A document built from data without a severity carries the default
severity, and the pre-save hook keeps a severity that is set. -/
theorem preSave_construct_severity (newId : Nat) (now : Int) (d : LogData) :
    (preSave (construct newId now { d with severity := none })).severity
      = some (severityDefault d.symptoms) := by
  simp [preSave, construct]

/-- What `createLog` stores: the derived fields are the two rules applied to
the stored symptoms. -/
theorem createLog_derived (newId : Nat) (now : Int) (user : Nat) (body : Body) (store : Store)
    (doc : SymptomLog) (store' : Store)
    (h : createLog newId now user body store = .ok (doc, store')) :
    doc.symptoms = body.symptoms
      ∧ doc.severity = some (severityDefault doc.symptoms)
      ∧ doc.followUpRequired = followUpRule doc.symptoms.attack doc.severity := by
  unfold createLog at h
  dsimp only at h
  split_ifs at h
  simp only [Except.ok.injEq, Prod.mk.injEq] at h
  obtain ⟨rfl, -⟩ := h
  refine ⟨?_, ?_, ?_⟩
  · rw [preSave_symptoms]; rfl
  · rw [preSave_symptoms]
    exact preSave_construct_severity newId now
      { userId := user, symptoms := body.symptoms, date := body.date, severity := none,
        followUpRequired := none }
  · exact preSave_followUp _

/-- C10: on every document the pre-save hook leaves `followUpRequired` true
exactly when `attack` is true or the severity is severe, and so does the
schema default on a newly built document; an entry created with attack true,
wheezing 0 and cough 0 is severe with follow-up required, and one created
with wheezing 8, cough 8 and no attack is moderate with no follow-up. -/
theorem followUpRequired_iff (doc : SymptomLog) (newId : Nat) (now : Int) (d : LogData) :
    ((preSave doc).followUpRequired = true
        ↔ (preSave doc).symptoms.attack = true ∨ (preSave doc).severity = some .severe)
      ∧ ((construct newId now { d with followUpRequired := none }).followUpRequired = true
        ↔ (construct newId now { d with followUpRequired := none }).symptoms.attack = true
          ∨ (construct newId now { d with followUpRequired := none }).severity = some .severe)
      ∧ (createLog 1 0 7 ⟨⟨0, 0, none, none, true, []⟩, none, none⟩ []).map Prod.fst
        = .ok ⟨1, 7, 0, ⟨0, 0, none, none, true, []⟩, some .severe, true⟩
      ∧ (createLog 1 0 7 ⟨⟨8, 8, none, none, false, []⟩, none, none⟩ []).map Prod.fst
        = .ok ⟨1, 7, 0, ⟨8, 8, none, none, false, []⟩, some .moderate, false⟩ := by
  refine ⟨?_, ?_, ?_, ?_⟩
  · rw [preSave_followUp]
    simp [followUpRule]
  · simp [construct, followUpRule]
  · norm_num [createLog, construct, preSave, validPaths, validLevel, validOptLevel, isInteger,
      severityDefault, avgSymptom, orZero, followUpRule, Except.map]
  · norm_num [createLog, construct, preSave, validPaths, validLevel, validOptLevel, isInteger,
      severityDefault, avgSymptom, orZero, followUpRule, Except.map]
    decide

/-- C5, the code at the failing input: an entry created with no symptoms and no
attack is stored as mild with no follow-up; after `updateLog` sets every level
to 10 and `attack` to true the stored severity is still mild and the stored
follow-up flag still false, while the two rules on the stored symptoms give
severe and true. -/
theorem updateLog_keeps_derived_fields :
    createLog 1 0 7 ⟨⟨0, 0, none, none, false, []⟩, none, none⟩ []
        = .ok (⟨1, 7, 0, ⟨0, 0, none, none, false, []⟩, some .mild, false⟩,
            [⟨1, 7, 0, ⟨0, 0, none, none, false, []⟩, some .mild, false⟩])
      ∧ updateLog 0 7 1 ⟨⟨10, 10, some 10, some 10, true, []⟩, none, none⟩
          [⟨1, 7, 0, ⟨0, 0, none, none, false, []⟩, some .mild, false⟩]
        = .ok (⟨1, 7, 0, ⟨10, 10, some 10, some 10, true, []⟩, some .mild, false⟩,
            [⟨1, 7, 0, ⟨10, 10, some 10, some 10, true, []⟩, some .mild, false⟩])
      ∧ severityDefault ⟨10, 10, some 10, some 10, true, []⟩ = .severe
      ∧ followUpRule true (some (severityDefault ⟨10, 10, some 10, some 10, true, []⟩))
        = true := by
  refine ⟨?_, ?_, ?_, ?_⟩
  · norm_num [createLog, construct, preSave, validPaths, validLevel, validOptLevel, isInteger,
      severityDefault, avgSymptom, orZero, followUpRule]
    decide
  · norm_num [updateLog, applySet, replaceFirst, validPaths, validLevel, validOptLevel,
      isInteger]
  · simp [severityDefault]
  · simp [followUpRule]

/-! ## Properties of `getInsights` -/

/-- C3, the code at the failing input: for an attack entry at time 0 and the
samples at +3 h and at 0 (the order of the query, newest first), the sample
joined is the one at +3 h, although the sample at 0 is strictly closer. -/
theorem nearestClimate_takes_first_in_window :
    nearestClimate [⟨10800000, .num 120⟩, ⟨0, .num 40⟩]
        ⟨1, 7, 0, ⟨0, 0, none, none, true, []⟩, some .severe, true⟩
        = some ⟨10800000, .num 120⟩
      ∧ |(0 : Int) - 0| < |(10800000 : Int) - 0| := by
  refine ⟨?_, by norm_num⟩
  simp [nearestClimate]

/-- The two counters of the AQI loop, started from any values, end raised by
the number of attack entries and by the number of attack entries joined to a
sample of AQI at least 100. -/
theorem foldl_aqiStep_counts (climates : List ClimateData) (logs : List SymptomLog)
    (acc : AqiAcc) :
    (logs.foldl (aqiStep climates) acc).totalAttacks = acc.totalAttacks + attackTotal logs
      ∧ (logs.foldl (aqiStep climates) acc).highAqiAttacks
        = acc.highAqiAttacks + highAqiAttackTotal climates logs := by
  induction logs generalizing acc with
  | nil => simp [attackTotal, highAqiAttackTotal]
  | cons l rest ih =>
    rw [List.foldl_cons]
    obtain ⟨ih1, ih2⟩ := ih (aqiStep climates acc l)
    rw [ih1, ih2]
    unfold aqiStep attackTotal highAqiAttackTotal joinedHighAqi
    cases hatt : l.symptoms.attack with
    | false => simp [hatt]
    | true =>
      cases hn : nearestClimate climates l with
      | none => simp [hatt, hn]; omega
      | some c =>
        cases hge : c.AQI.ge 100 with
        | false => simp [hatt, hn, hge]; omega
        | true => simp [hatt, hn, hge]; omega

/-- The counters after the AQI loop. -/
theorem aqiLoop_counts (climates : List ClimateData) (logs : List SymptomLog) :
    (aqiLoop climates logs).totalAttacks = attackTotal logs
      ∧ (aqiLoop climates logs).highAqiAttacks = highAqiAttackTotal climates logs := by
  have h := foldl_aqiStep_counts climates logs ⟨0, 0, []⟩
  simpa [aqiLoop] using h

/-- The value of `Math.round` on a quotient of naturals is within one half of
it: `2 * |a - round(a / b) * b| ≤ b`. -/
theorem mathRound_div_near (a b : Nat) (hb : b ≠ 0) :
    2 * |(a : Int) - mathRound ((a : ℚ) / b) * b| ≤ b := by
  have hbq : (0 : ℚ) < b := by exact_mod_cast Nat.pos_of_ne_zero hb
  have h1 : ((mathRound ((a : ℚ) / b) : Int) : ℚ) ≤ (a : ℚ) / b + 1 / 2 := Int.floor_le _
  have h2 : (a : ℚ) / b + 1 / 2 < (mathRound ((a : ℚ) / b) : Int) + 1 := Int.lt_floor_add_one _
  have e : ((a : ℚ) / b + 1 / 2) * b = a + b / 2 := by
    field_simp
    ring
  have h1' := mul_le_mul_of_nonneg_right h1 hbq.le
  have h2' := mul_lt_mul_of_pos_right h2 hbq
  rw [e] at h1' h2'
  have key : (2 : ℚ) * |(a : ℚ) - (mathRound ((a : ℚ) / b) : Int) * b| ≤ b := by
    have : |(a : ℚ) - (mathRound ((a : ℚ) / b) : Int) * b| ≤ b / 2 := by
      rw [abs_le]
      constructor <;> linarith
    linarith
  exact_mod_cast key

/-- No more attack entries are joined to a high-AQI sample than there are
attack entries. -/
theorem highAqiAttackTotal_le (climates : List ClimateData) (logs : List SymptomLog) :
    highAqiAttackTotal climates logs ≤ attackTotal logs := by
  unfold highAqiAttackTotal attackTotal
  induction logs with
  | nil => simp
  | cons l rest ih =>
    simp only [List.filter_cons]
    cases l.symptoms.attack <;> cases joinedHighAqi climates l <;> simp <;> omega

/-- C4: with `t` the number of attack entries and `h` the number of attack
entries whose joined sample has AQI at least 100, `highAqiAttackPercentage` is
0 and the message is the "no attacks" one when `t = 0`, and otherwise the
percentage is `Math.round(100 * h / t)`, an integer within one half of
`100 * h / t`, and the message quotes it; the denominator counts every attack
entry, joined or not, so two high-AQI joins among three attacks (the third
joined to nothing) give 67. -/
theorem highAqiAttackPercentage_eq (logs : List SymptomLog) (climates : List ClimateData) :
    (getInsights logs climates).aqi.highAqiAttackPercentage
        = (if attackTotal logs = 0 then 0
           else mathRound ((100 * highAqiAttackTotal climates logs : ℚ) / attackTotal logs))
      ∧ (getInsights logs climates).aqi.message
        = (if attackTotal logs = 0 then ("No attacks recorded in this period")
           else toString (getInsights logs climates).aqi.highAqiAttackPercentage
              ++ "% of your attacks occurred when AQI was â‰¥ 100")
      ∧ 2 * |100 * (highAqiAttackTotal climates logs : Int)
            - (getInsights logs climates).aqi.highAqiAttackPercentage * attackTotal logs|
          ≤ attackTotal logs
      ∧ attackTotal [attackAt 0, entryWith [], attackAt (-36000000), attackAt (-72000000)] = 3
      ∧ highAqiAttackTotal [⟨0, .num 120⟩, ⟨-36000000, .num 150⟩]
          [attackAt 0, entryWith [], attackAt (-36000000), attackAt (-72000000)] = 2
      ∧ (getInsights [attackAt 0, entryWith [], attackAt (-36000000), attackAt (-72000000)]
          [⟨0, .num 120⟩, ⟨-36000000, .num 150⟩]).aqi.highAqiAttackPercentage = 67 := by
  have hpct : ∀ (lg : List SymptomLog) (cl : List ClimateData),
      (getInsights lg cl).aqi.highAqiAttackPercentage
        = (if attackTotal lg = 0 then 0
           else mathRound ((100 * highAqiAttackTotal cl lg : ℚ) / attackTotal lg)) := by
    intro lg cl
    obtain ⟨ht, hh⟩ := aqiLoop_counts cl lg
    simp only [getInsights, aqiCorrelation, ht, hh, ne_eq, ite_not]
  have h3 : attackTotal [attackAt 0, entryWith [], attackAt (-36000000), attackAt (-72000000)]
      = 3 := by decide
  have h2 : highAqiAttackTotal [⟨0, .num 120⟩, ⟨-36000000, .num 150⟩]
      [attackAt 0, entryWith [], attackAt (-36000000), attackAt (-72000000)] = 2 := by decide
  refine ⟨hpct logs climates, ?_, ?_, h3, h2, ?_⟩
  · obtain ⟨ht, hh⟩ := aqiLoop_counts climates logs
    simp only [getInsights, aqiCorrelation, ht, hh, ne_eq, ite_not]
    split_ifs <;> rfl
  · rw [hpct]
    by_cases h0 : attackTotal logs = 0
    · have := highAqiAttackTotal_le climates logs
      have hh0 : highAqiAttackTotal climates logs = 0 := by omega
      simp [h0, hh0]
    · rw [if_neg h0]
      have := mathRound_div_near (100 * highAqiAttackTotal climates logs) (attackTotal logs) h0
      push_cast at this
      exact this
  · rw [hpct, h3, h2]
    norm_num [mathRound, Int.floor_eq_iff]

/-! ### The trigger ranking -/

/-- The trigger loop is one pass of `bumpCount` over the tags in the order
they are processed. -/
theorem triggerCounts_eq_foldl (logs : List SymptomLog) :
    triggerCounts logs = (loggedTriggers logs).foldl bumpCount [] := by
  unfold triggerCounts loggedTriggers
  generalize ([] : List (Trigger × Nat)) = init
  induction logs generalizing init with
  | nil => rfl
  | cons l rest ih =>
    rw [List.foldl_cons, ih, List.flatMap_cons, List.foldl_append]

/-- The keys after a bump: unchanged when the tag is present, the tag added
last otherwise. -/
theorem keys_bumpCount (c : List (Trigger × Nat)) (t : Trigger) :
    (bumpCount c t).map Prod.fst
      = if t ∈ c.map Prod.fst then c.map Prod.fst else c.map Prod.fst ++ [t] := by
  induction c with
  | nil => simp [bumpCount]
  | cons e rest ih =>
    obtain ⟨k, n⟩ := e
    by_cases hk : k = t
    · simp [bumpCount, hk]
    · have hk' : ¬ t = k := fun h => hk h.symm
      by_cases hm : t ∈ rest.map Prod.fst
      · simp only [bumpCount, hk, if_false, List.map_cons, ih, hm, if_true, List.mem_cons,
          or_true]
      · simp only [bumpCount, hk, if_false, List.map_cons, ih, hm, List.mem_cons, hk',
          or_self, List.cons_append]

/-- The count read for a key after a bump. -/
theorem countOf_bumpCount (c : List (Trigger × Nat)) (t k : Trigger) :
    countOf (bumpCount c t) k = if k = t then countOf c k + 1 else countOf c k := by
  induction c with
  | nil =>
    by_cases h : k = t
    · simp [bumpCount, countOf, h]
    · have h' : ¬ t = k := fun e => h e.symm
      simp [bumpCount, countOf, h, h']
  | cons e rest ih =>
    obtain ⟨j, n⟩ := e
    by_cases hj : j = t
    · subst hj
      by_cases hk : k = j
      · simp [bumpCount, countOf, hk]
      · have hk' : ¬ j = k := fun e => hk e.symm
        simp [bumpCount, countOf, hk, hk']
    · by_cases hjk : j = k
      · subst hjk
        simp [bumpCount, countOf, hj]
      · simp [bumpCount, countOf, hj, hjk, ih]

/-- In a table without a repeated key an entry holds the count read for its
key. -/
theorem countOf_of_mem (c : List (Trigger × Nat)) (hc : (c.map Prod.fst).Nodup)
    (e : Trigger × Nat) (he : e ∈ c) : countOf c e.1 = e.2 := by
  induction c with
  | nil => simp at he
  | cons d rest ih =>
    obtain ⟨k, n⟩ := d
    rw [List.map_cons, List.nodup_cons] at hc
    rcases List.mem_cons.mp he with h | h
    · subst h
      simp [countOf]
    · have hne : ¬ k = e.1 := by
        intro hk
        apply hc.1
        rw [hk]
        exact List.mem_map.mpr ⟨e, h, rfl⟩
      simp [countOf, hne, ih hc.2 h]

/-- The table after one pass over a list of tags: its keys are the tags of the
list, in the order of their first occurrences, and the count read for every
tag is its number of occurrences. -/
theorem foldl_bumpCount_spec (ts : List Trigger) :
    (∀ k, k ∈ (ts.foldl bumpCount []).map Prod.fst ↔ k ∈ ts)
      ∧ ((ts.foldl bumpCount []).map Prod.fst).Pairwise
          (fun a b => ts.indexOf a < ts.indexOf b)
      ∧ ∀ k, countOf (ts.foldl bumpCount []) k = ts.count k := by
  induction ts using List.reverseRecOn with
  | nil => simp [countOf]
  | append_singleton pre t ih =>
    obtain ⟨hmem, hord, hcnt⟩ := ih
    rw [List.foldl_append, List.foldl_cons, List.foldl_nil]
    have hord' : ((pre.foldl bumpCount []).map Prod.fst).Pairwise
        (fun a b => (pre ++ [t]).indexOf a < (pre ++ [t]).indexOf b) := by
      refine hord.imp_of_mem ?_
      intro a b ha hb hab
      rw [List.indexOf_append_of_mem ((hmem a).mp ha),
        List.indexOf_append_of_mem ((hmem b).mp hb)]
      exact hab
    refine ⟨?_, ?_, ?_⟩
    · intro k
      rw [keys_bumpCount]
      by_cases hm : t ∈ (pre.foldl bumpCount []).map Prod.fst
      · rw [if_pos hm, hmem, List.mem_append, List.mem_singleton]
        constructor
        · exact Or.inl
        · rintro (h | h)
          · exact h
          · rw [h]; exact (hmem t).mp hm
      · rw [if_neg hm, List.mem_append, List.mem_append, hmem]
    · rw [keys_bumpCount]
      by_cases hm : t ∈ (pre.foldl bumpCount []).map Prod.fst
      · rw [if_pos hm]
        exact hord'
      · rw [if_neg hm, List.pairwise_append]
        refine ⟨hord', List.pairwise_singleton _ _, ?_⟩
        intro a ha b hb
        rw [List.mem_singleton] at hb
        subst hb
        have hb' : b ∉ pre := fun h => hm ((hmem b).mpr h)
        rw [List.indexOf_append_of_mem ((hmem a).mp ha), List.indexOf_append_of_not_mem hb']
        have := List.indexOf_lt_length.mpr ((hmem a).mp ha)
        omega
    · intro k
      rw [countOf_bumpCount, hcnt, List.count_append, List.count_singleton]
      by_cases hk : k = t
      · simp [hk]
      · have hk' : ¬ t = k := fun e => hk e.symm
        simp [hk, hk']

/-- Stability of the sort: the entries of any one count stand in the sorted
table in the order they have in the table. -/
theorem insertionSort_filter_count (l : List (Trigger × Nat)) (v : Nat) :
    (l.insertionSort countGe).filter (fun e => decide (e.2 = v))
      = l.filter (fun e => decide (e.2 = v)) := by
  have hpw : (l.filter (fun e => decide (e.2 = v))).Pairwise countGe := by
    apply List.pairwise_of_forall_mem_list
    intro a ha b hb
    have ha' := (List.mem_filter.mp ha).2
    have hb' := (List.mem_filter.mp hb).2
    simp only [decide_eq_true_eq] at ha' hb'
    unfold countGe
    omega
  have hsub := List.sublist_insertionSort hpw (List.filter_sublist l)
  have h2 := hsub.filter (fun e => decide (e.2 = v))
  rw [List.filter_filter] at h2
  simp only [Bool.and_self] at h2
  have hperm := (List.perm_insertionSort countGe l).filter (fun e => decide (e.2 = v))
  exact (h2.eq_of_length hperm.length_eq.symm).symm

/-- The sorted count table is ordered by non-increasing count, and entries of
equal count by the first occurrence of their tag. -/
theorem sorted_triggerCounts_order (logs : List SymptomLog) :
    ((triggerCounts logs).insertionSort countGe).Pairwise
      (fun x y => y.2 < x.2 ∨ (y.2 = x.2
        ∧ (loggedTriggers logs).indexOf x.1 < (loggedTriggers logs).indexOf y.1)) := by
  rw [List.pairwise_iff_forall_sublist]
  intro a b hab
  have hs : ((triggerCounts logs).insertionSort countGe).Pairwise countGe :=
    List.sorted_insertionSort countGe _
  have hge : b.2 ≤ a.2 := (List.pairwise_iff_forall_sublist.mp hs) hab
  by_cases hlt : b.2 < a.2
  · exact Or.inl hlt
  · have heq : b.2 = a.2 := by omega
    refine Or.inr ⟨heq, ?_⟩
    have hf := hab.filter (fun e => decide (e.2 = a.2))
    rw [insertionSort_filter_count] at hf
    have hfl : [a, b].filter (fun e => decide (e.2 = a.2)) = [a, b] := by
      simp [List.filter_cons, heq]
    rw [hfl] at hf
    have hsub : List.Sublist [a, b] (triggerCounts logs) := hf.trans (List.filter_sublist _)
    have hkeys := hsub.map Prod.fst
    rw [triggerCounts_eq_foldl] at hkeys
    exact (List.pairwise_iff_forall_sublist.mp (foldl_bumpCount_spec (loggedTriggers logs)).2.1)
      hkeys

/-- Every entry of the count table holds the number of times its tag was
logged. -/
theorem triggerCounts_count (logs : List SymptomLog) (e : Trigger × Nat)
    (he : e ∈ triggerCounts logs) : e.2 = (loggedTriggers logs).count e.1 := by
  obtain ⟨-, hord, hcnt⟩ := foldl_bumpCount_spec (loggedTriggers logs)
  rw [triggerCounts_eq_foldl] at he
  have hnd : (((loggedTriggers logs).foldl bumpCount []).map Prod.fst).Nodup :=
    hord.imp (fun {a b} h hab => by
      rw [hab] at h
      exact Nat.lt_irrefl _ h)
  rw [← hcnt, countOf_of_mem _ hnd e he]

/-- C8: `triggers.mostCommon` is ordered by non-increasing count, and of two
items with equal count the one whose tag was seen first, in the order the
entries are processed, comes first; the count of an item is the number of
times its tag was logged. With pollen logged before dust and each logged
twice, pollen is listed above dust. -/
theorem mostCommon_order (logs : List SymptomLog) :
    (mostCommon logs).Pairwise
        (fun x y => y.count < x.count ∨ (y.count = x.count
          ∧ (loggedTriggers logs).indexOf x.trigger < (loggedTriggers logs).indexOf y.trigger))
      ∧ (∀ x ∈ mostCommon logs, x.count = (loggedTriggers logs).count x.trigger)
      ∧ (mostCommon [entryWith [.pollen, .dust], entryWith [.dust, .pollen]]).map
          (fun x => (x.trigger, x.count)) = [(.pollen, 2), (.dust, 2)] := by
  refine ⟨?_, ?_, by decide⟩
  · unfold mostCommon
    rw [List.pairwise_map]
    exact (sorted_triggerCounts_order logs).sublist (List.take_sublist 5 _)
  · intro x hx
    unfold mostCommon at hx
    obtain ⟨e, he, rfl⟩ := List.mem_map.mp hx
    have he' : e ∈ triggerCounts logs :=
      (List.perm_insertionSort countGe _).mem_iff.mp (List.mem_of_mem_take he)
    exact triggerCounts_count logs e he'

/-- C9: the recommendation list is the concatenation, in the order
environmental, trigger management, medical, of the rules whose condition
holds: the environmental one when the percentage exceeds 50, the trigger one
(naming the first item of `mostCommon`) when `mostCommon` is not empty, the
medical one when the attack count exceeds 2. Its types form a sub-list of the
three types in that order, so it has at most 3 items and no type twice; and
`getInsights` builds its list from its own percentage, `mostCommon` and
attack count. -/
theorem recommend_rules (pct : Int) (mc : List TriggerStat) (n : Nat)
    (logs : List SymptomLog) (climates : List ClimateData) :
    recommend pct mc n
        = (if 50 < pct then [environmentalRec] else [])
          ++ (match mc with
              | [] => []
              | top :: _ => [triggerRec top])
          ++ (if 2 < n then [medicalRec] else [])
      ∧ ((recommend pct mc n).map (fun r => r.type)).Sublist
          [.environmental, .trigger_management, .medical]
      ∧ (recommend pct mc n).length ≤ 3
      ∧ ((recommend pct mc n).map (fun r => r.type)).Nodup
      ∧ ((recommend pct mc n).map (fun r => (r.type, r.priority))).Sublist
          [(.environmental, .high), (.trigger_management, .medium), (.medical, .high)]
      ∧ (getInsights logs climates).recommendations
        = recommend (getInsights logs climates).aqi.highAqiAttackPercentage
            (getInsights logs climates).mostCommon
            (getInsights logs climates).summary.attackCount := by
  refine ⟨?_, ?_, ?_, ?_, ?_, rfl⟩
  all_goals
    cases mc <;> by_cases h1 : 50 < pct <;> by_cases h2 : 2 < n <;>
      simp [recommend, h1, h2, environmentalRec, triggerRec, medicalRec]

/-! ## Properties of the overall score -/

/-- A value that passes the validators of a symptom level is a natural number
of at most 10. -/
theorem validLevel_nat (q : ℚ) (h : validLevel q = true) : ∃ n : ℕ, n ≤ 10 ∧ q = n := by
  simp only [validLevel, isInteger, Bool.and_eq_true, decide_eq_true_eq, beq_iff_eq] at h
  obtain ⟨⟨h0, h10⟩, hden⟩ := h
  have hq : ((q.num : ℤ) : ℚ) = q := Rat.coe_int_num_of_den_eq_one hden
  have hnum0 : 0 ≤ q.num := Rat.num_nonneg.mpr h0
  refine ⟨q.num.toNat, ?_, ?_⟩
  · have h1 : ((q.num : ℤ) : ℚ) ≤ 10 := by rw [hq]; exact h10
    have h2 : q.num ≤ 10 := by exact_mod_cast h1
    omega
  · have h3 : ((q.num.toNat : ℤ)) = q.num := Int.toNat_of_nonneg hnum0
    rw [← hq]
    exact_mod_cast h3.symm

/-- An optional level that passes its validators counts, when absent, as 0. -/
theorem validOptLevel_nat (x : Option ℚ) (h : validOptLevel x = true) :
    ∃ n : ℕ, n ≤ 10 ∧ x.getD 0 = n := by
  cases x with
  | none => exact ⟨0, by omega, by simp⟩
  | some q => exact validLevel_nat q h

/-- The conditional additions of the getter add an optional level read as 0
when it is absent. -/
theorem overallScore_eq (s : Symptoms) :
    overallScore s
      = min (s.wheezing + s.cough + s.breathlessness.getD 0 + s.chestTightness.getD 0
          + (if s.attack = true then 5 else 0)) 10 := by
  have key : ∀ (x : Option ℚ) (a : ℚ), (if truthy x = true then a + x.getD 0 else a)
      = a + x.getD 0 := by
    intro x a
    cases x with
    | none => simp [truthy]
    | some v =>
      by_cases hv : v = 0
      · simp [truthy, hv]
      · simp [truthy, hv]
  simp only [overallScore, key]
  cases s.attack <;> simp

/-- C11: for every symptom entry whose present levels pass the validators
(integers in [0, 10]), `overallScore` is the minimum of 10 and wheezing +
cough + breathlessness + chest tightness + (5 when `attack`), an absent
optional level counting as 0, and it is an integer between 0 and 10. -/
theorem overallScore_valid (s : Symptoms) (hw : validLevel s.wheezing = true)
    (hc : validLevel s.cough = true) (hb : validOptLevel s.breathlessness = true)
    (ht : validOptLevel s.chestTightness = true) :
    overallScore s
        = min 10 (s.wheezing + s.cough + s.breathlessness.getD 0 + s.chestTightness.getD 0
            + (if s.attack = true then 5 else 0))
      ∧ ∃ n : ℕ, n ≤ 10 ∧ overallScore s = n := by
  obtain ⟨w, -, hw'⟩ := validLevel_nat _ hw
  obtain ⟨c, -, hc'⟩ := validLevel_nat _ hc
  obtain ⟨b, -, hb'⟩ := validOptLevel_nat _ hb
  obtain ⟨t, -, ht'⟩ := validOptLevel_nat _ ht
  refine ⟨by rw [overallScore_eq, min_comm], ?_⟩
  rw [overallScore_eq, hw', hc', hb', ht']
  refine ⟨min (w + c + b + t + (if s.attack = true then 5 else 0)) 10, Nat.min_le_right _ _, ?_⟩
  cases s.attack <;> simp

/-- C11 at an entry with wheezing 3, cough 2, chest tightness 1 and an attack:
the score is 10, the cap. -/
theorem overallScore_valid_witness :
    overallScore ⟨3, 2, none, some 1, true, []⟩
        = min 10 ((3 : ℚ) + 2 + (none : Option ℚ).getD 0 + (some (1 : ℚ)).getD 0
            + (if true = true then 5 else 0))
      ∧ ∃ n : ℕ, n ≤ 10 ∧ overallScore ⟨3, 2, none, some 1, true, []⟩ = n :=
  overallScore_valid ⟨3, 2, none, some 1, true, []⟩ (by decide) (by decide) (by decide)
    (by decide)

/-! ## The four-hour window, the empty history and the summary -/

/-- C12, against the claim as written: for an attack entry at time 0 and a
single sample exactly four hours earlier the distance does not exceed four
hours, yet no sample is joined. -/
theorem nearestClimate_exactly_four_hours :
    ¬ (4 * 3600 * 1000 < |(-14400000 : Int) - (attackAt 0).date|)
      ∧ nearestClimate [⟨-14400000, .num 120⟩] (attackAt 0) = none := by
  refine ⟨by simp [attackAt], ?_⟩
  simp [nearestClimate, attackAt]

/-- C12, amended: an entry is joined to no sample exactly when every sample
is at least four hours away (in particular when there is none). An entry at
T with samples at T-3h and T-5h joins the one at T-3h, an entry with only a
sample at T-5h joins none, and an entry whose only sample is exactly four
hours away joins none. -/
theorem nearestClimate_eq_none_iff (climates : List ClimateData) (log : SymptomLog) :
    (nearestClimate climates log = none
        ↔ ∀ c ∈ climates, 4 * 3600 * 1000 ≤ |c.createdAt - log.date|)
      ∧ nearestClimate [] log = none
      ∧ nearestClimate [⟨-10800000, .num 120⟩, ⟨-18000000, .num 40⟩] (attackAt 0)
        = some ⟨-10800000, .num 120⟩
      ∧ nearestClimate [⟨-18000000, .num 40⟩] (attackAt 0) = none
      ∧ nearestClimate [⟨-14400000, .num 120⟩] (attackAt 0) = none := by
  refine ⟨?_, rfl, ?_, ?_, ?_⟩
  · simp [nearestClimate, List.find?_eq_none]
  · simp [nearestClimate, attackAt]
  · simp [nearestClimate, attackAt]
  · simp [nearestClimate, attackAt]

/-- C16: with no entry in the window `getInsights` returns the neutral
report, whatever the samples: all summary counts and both averages 0, the
percentage 0 with the message "No attacks recorded in this period", no item in
`mostCommon` and no recommendation. -/
theorem getInsights_empty (climates : List ClimateData) :
    getInsights [] climates
      = { summary := { totalLogs := 0, attackCount := 0, averageWheezing := 0,
                       averageCough := 0, mild := 0, moderate := 0, severe := 0 }
          aqi := { highAqiAttackPercentage := 0
                   message := "No attacks recorded in this period" }
          mostCommon := []
          recommendations := [] } := by
  simp [getInsights, summarize, averageOrZero, aqiLoop, aqiCorrelation, mostCommon,
    triggerCounts, recommend]

/-! ### Doubles -/

/-- The binary exponent of a positive rational, from its two bounds. -/
theorem log2_eq (r : ℚ) (k : Int) (h1 : (2 : ℚ) ^ k ≤ r) (h2 : r < (2 : ℚ) ^ (k + 1)) :
    Int.log 2 r = k := by
  have hr : 0 < r := lt_of_lt_of_le (by positivity) h1
  have ha : k ≤ Int.log 2 r :=
    (Int.zpow_le_iff_le_log (by norm_num) hr).mp (by exact_mod_cast h1)
  have hb : Int.log 2 r < k + 1 :=
    (Int.lt_zpow_iff_log_lt (by norm_num) hr).mp (by exact_mod_cast h2)
  omega

/-- An integer rounds to itself. -/
theorem roundHalfEven_intCast (n : Int) : roundHalfEven (n : ℚ) = n := by
  simp [roundHalfEven]

/-- The rounded integer is within one half of the value. -/
theorem abs_roundHalfEven_sub_le (x : ℚ) : |(roundHalfEven x : ℚ) - x| ≤ 1 / 2 := by
  have h1 : (⌊x⌋ : ℚ) ≤ x := Int.floor_le x
  have h2 : x < ⌊x⌋ + 1 := Int.lt_floor_add_one x
  unfold roundHalfEven
  rw [abs_le]
  split_ifs with ha hb hc <;> push_cast <;> constructor <;> linarith

/-- A value that is a whole number of units in the last place is a double. -/
theorem roundDouble_exact (q : ℚ) (m : Int) (h : q = m * (2 : ℚ) ^ ulpExponent q) :
    roundDouble q = q := by
  have hpos : (2 : ℚ) ^ ulpExponent q ≠ 0 := by positivity
  have hdiv : q / (2 : ℚ) ^ ulpExponent q = m := by
    rw [div_eq_iff hpos]
    exact h
  unfold roundDouble
  rw [hdiv, roundHalfEven_intCast]
  exact h.symm

/-- A natural number below 2^53 is a double. -/
theorem roundDouble_natCast (k : Nat) (hk : k < 2 ^ 53) : roundDouble (k : ℚ) = k := by
  have hlog : Int.log 2 |(k : ℚ)| = Nat.log 2 k := by
    rw [abs_of_nonneg (by positivity), Int.log_natCast]
  have hle : Nat.log 2 k ≤ 52 := by
    rcases Nat.eq_zero_or_pos k with h0 | h0
    · subst h0
      simp
    · have := Nat.log_lt_of_lt_pow (Nat.pos_iff_ne_zero.mp h0) hk
      omega
  have hu : ulpExponent (k : ℚ) = -((52 - Nat.log 2 k : ℕ) : Int) := by
    unfold ulpExponent
    rw [hlog]
    omega
  apply roundDouble_exact (k : ℚ) ((k * 2 ^ (52 - Nat.log 2 k) : ℕ) : Int)
  rw [hu, zpow_neg, zpow_natCast]
  push_cast
  field_simp

/-- The double nearest to a value in the normal range is within a relative
error of 2^-53 of it. -/
theorem abs_roundDouble_sub_le (q : ℚ) (hq : (2 : ℚ) ^ (-1022 : Int) ≤ q) :
    |roundDouble q - q| ≤ q / 2 ^ 53 := by
  have hq0 : 0 < q := lt_of_lt_of_le (by positivity) hq
  have hlog : (-1022 : Int) ≤ Int.log 2 |q| := by
    rw [abs_of_pos hq0]
    exact (Int.zpow_le_iff_le_log (by norm_num) hq0).mp (by exact_mod_cast hq)
  have hu : ulpExponent q = Int.log 2 q - 52 := by
    unfold ulpExponent
    rw [abs_of_pos hq0] at hlog ⊢
    rw [max_eq_left hlog]
  have hpos : (0 : ℚ) < (2 : ℚ) ^ ulpExponent q := by positivity
  have hule : (2 : ℚ) ^ ulpExponent q ≤ q / 2 ^ 52 := by
    rw [hu, zpow_sub₀ (by norm_num : (2 : ℚ) ≠ 0)]
    have := Int.zpow_log_le_self (b := 2) (r := q) (by norm_num) hq0
    have h52 : (2 : ℚ) ^ (52 : Int) = 2 ^ 52 := by norm_num
    rw [h52]
    apply div_le_div_of_nonneg_right _ (by positivity)
    exact_mod_cast this
  have herr := abs_roundHalfEven_sub_le (q / (2 : ℚ) ^ ulpExponent q)
  have hfac : roundDouble q - q
      = ((roundHalfEven (q / (2 : ℚ) ^ ulpExponent q) : ℚ) - q / (2 : ℚ) ^ ulpExponent q)
        * (2 : ℚ) ^ ulpExponent q := by
    unfold roundDouble
    field_simp
  rw [hfac, abs_mul, abs_of_pos hpos]
  calc |((roundHalfEven (q / (2 : ℚ) ^ ulpExponent q) : ℚ) - q / (2 : ℚ) ^ ulpExponent q)|
        * (2 : ℚ) ^ ulpExponent q
      ≤ 1 / 2 * (2 : ℚ) ^ ulpExponent q := mul_le_mul_of_nonneg_right herr hpos.le
    _ ≤ 1 / 2 * (q / 2 ^ 52) := mul_le_mul_of_nonneg_left hule (by norm_num)
    _ = q / 2 ^ 53 := by ring

/-- The double nearest to one third is 6004799503160661 / 2^54, the number
printed as 0.3333333333333333. -/
theorem roundDouble_one_third :
    roundDouble (1 / 3) = 6004799503160661 / 18014398509481984 := by
  have hlog : Int.log 2 |(1 / 3 : ℚ)| = -2 := by
    rw [abs_of_pos (by norm_num)]
    exact log2_eq _ _ (by norm_num) (by norm_num)
  have hu : ulpExponent (1 / 3) = -54 := by
    unfold ulpExponent
    rw [hlog]
    norm_num
  unfold roundDouble
  rw [hu]
  have hf : ⌊(1 / 3 : ℚ) / (2 : ℚ) ^ (-54 : Int)⌋ = 6004799503160661 := by
    rw [Int.floor_eq_iff]
    norm_num
  unfold roundHalfEven
  rw [hf]
  norm_num

/-! ### The summary -/

/-- The running sum of a `reduce` over levels that pass the validators is the
exact sum: every partial sum is a natural number below 2^53. -/
theorem foldl_roundDouble_sum (f : SymptomLog → ℚ) (logs : List SymptomLog)
    (hf : ∀ l ∈ logs, validLevel (f l) = true) (k : Nat)
    (hk : k + 10 * logs.length < 2 ^ 53) :
    ∃ s : ℕ, s ≤ 10 * logs.length ∧ (logs.map f).sum = s
      ∧ logs.foldl (fun sum l => roundDouble (sum + f l)) (k : ℚ) = ((k + s : ℕ) : ℚ) := by
  induction logs generalizing k with
  | nil => exact ⟨0, by simp, by simp, by simp⟩
  | cons l rest ih =>
    obtain ⟨n, hn10, hn⟩ := validLevel_nat (f l) (hf l (List.mem_cons_self _ _))
    have hlen : (l :: rest).length = rest.length + 1 := rfl
    rw [hlen] at hk
    have hstep : roundDouble ((k : ℚ) + f l) = ((k + n : ℕ) : ℚ) := by
      rw [hn]
      have := roundDouble_natCast (k + n) (by omega)
      push_cast at this ⊢
      exact this
    obtain ⟨s, hs10, hsum, hfold⟩ := ih (fun m hm => hf m (List.mem_cons_of_mem _ hm)) (k + n)
      (by omega)
    refine ⟨n + s, by rw [hlen]; omega, ?_, ?_⟩
    · rw [List.map_cons, List.sum_cons, hn, hsum]
      push_cast
      rfl
    · rw [List.foldl_cons, hstep, hfold]
      congr 1
      omega

/-- The average of the summary over valid levels: the double nearest to the
exact quotient of the sum by the number of entries, within a relative error of
2^-53 of it. -/
theorem averageOrZero_foldl (f : SymptomLog → ℚ) (logs : List SymptomLog) (hne : logs ≠ [])
    (hsize : logs.length ≤ 2 ^ 49) (hf : ∀ l ∈ logs, validLevel (f l) = true) :
    averageOrZero (logs.foldl (fun sum l => roundDouble (sum + f l)) 0) logs.length
        = roundDouble ((logs.map f).sum / logs.length)
      ∧ |roundDouble ((logs.map f).sum / logs.length) - (logs.map f).sum / logs.length|
        ≤ (logs.map f).sum / logs.length / 2 ^ 53 := by
  have hn : logs.length ≠ 0 := fun h => hne (List.length_eq_zero.mp h)
  have hnpos : 0 < logs.length := Nat.pos_of_ne_zero hn
  have hnq : (0 : ℚ) < logs.length := by exact_mod_cast hnpos
  obtain ⟨s, -, hsum, hfold⟩ := foldl_roundDouble_sum f logs hf 0 (by
    have : (2 : ℕ) ^ 53 = 16 * 2 ^ 49 := by norm_num
    omega)
  have hfold' : logs.foldl (fun sum l => roundDouble (sum + f l)) 0 = (s : ℚ) := by
    have := hfold
    simp only [Nat.cast_zero, Nat.zero_add] at this
    exact this
  refine ⟨?_, ?_⟩
  · rw [hfold', hsum]
    unfold averageOrZero
    rw [if_neg hn]
    split_ifs with h0
    · exact h0.symm
    · rfl
  · rw [hsum]
    rcases Nat.eq_zero_or_pos s with hs | hs
    · subst hs
      have h0 := roundDouble_natCast 0 (by norm_num)
      simp only [Nat.cast_zero] at h0
      simp [h0]
    · apply abs_roundDouble_sub_le
      have hs1 : (1 : ℚ) ≤ s := by exact_mod_cast hs
      have hn49 : (logs.length : ℚ) ≤ 2 ^ 49 := by exact_mod_cast hsize
      have h1 : (1 : ℚ) / 2 ^ 49 ≤ (s : ℚ) / logs.length := by
        rw [div_le_div_iff₀ (by positivity) hnq]
        nlinarith
      have h2 : (2 : ℚ) ^ (-1022 : Int) ≤ (2 : ℚ) ^ (-49 : Int) :=
        zpow_le_zpow_right₀ (by norm_num) (by norm_num)
      have h3 : (2 : ℚ) ^ (-49 : Int) = 1 / 2 ^ 49 := by
        rw [zpow_neg, one_div]
        norm_cast
      rw [h3] at h2
      exact le_trans h2 h1

/-- C17, against the claim as written: for the history of three entries with
wheezing 1, 0 and 0 the exact quotient of the sum by the number of entries is
one third, and `averageWheezing` is the double 6004799503160661 / 2^54
(printed 0.3333333333333333), which is not one third. -/
theorem averageWheezing_one_third :
    (getInsights [entryLevels 1 0, entryLevels 0 0, entryLevels 0 0] []).summary.averageWheezing
        = 6004799503160661 / 18014398509481984
      ∧ ([entryLevels 1 0, entryLevels 0 0, entryLevels 0 0].map
          (fun l => l.symptoms.wheezing)).sum
          / ([entryLevels 1 0, entryLevels 0 0, entryLevels 0 0].length : ℚ) = 1 / 3
      ∧ ¬ (getInsights [entryLevels 1 0, entryLevels 0 0, entryLevels 0 0]
            []).summary.averageWheezing
          = ([entryLevels 1 0, entryLevels 0 0, entryLevels 0 0].map
              (fun l => l.symptoms.wheezing)).sum
            / ([entryLevels 1 0, entryLevels 0 0, entryLevels 0 0].length : ℚ) := by
  have hsum : ([entryLevels 1 0, entryLevels 0 0, entryLevels 0 0].map
      (fun l => l.symptoms.wheezing)).sum
      / ([entryLevels 1 0, entryLevels 0 0, entryLevels 0 0].length : ℚ) = 1 / 3 := by
    norm_num [entryLevels]
  have havg : (getInsights [entryLevels 1 0, entryLevels 0 0, entryLevels 0 0]
      []).summary.averageWheezing = 6004799503160661 / 18014398509481984 := by
    have h := (averageOrZero_foldl (fun l => l.symptoms.wheezing)
      [entryLevels 1 0, entryLevels 0 0, entryLevels 0 0] (by simp) (by norm_num)
      (by decide)).1
    rw [hsum, roundDouble_one_third] at h
    exact h
  refine ⟨havg, hsum, ?_⟩
  rw [havg, hsum]
  norm_num

/-- C17, amended: for every non-empty history of at most 2^49 entries whose
wheezing and cough pass the validators (integers in [0, 10]), the summary
holds the number of entries, the number of attack entries, for wheezing and
for cough the double nearest to the sum divided by the number of entries
(within a relative error of 2^-53 of that quotient), and for each severity the
number of entries that carry it. -/
theorem getInsights_summary (logs : List SymptomLog) (climates : List ClimateData)
    (hne : logs ≠ []) (hsize : logs.length ≤ 2 ^ 49)
    (hlevels : ∀ l ∈ logs,
      validLevel l.symptoms.wheezing = true ∧ validLevel l.symptoms.cough = true) :
    (getInsights logs climates).summary.totalLogs = logs.length
      ∧ (getInsights logs climates).summary.attackCount
        = logs.countP (fun l => l.symptoms.attack)
      ∧ (getInsights logs climates).summary.averageWheezing
        = roundDouble ((logs.map (fun l => l.symptoms.wheezing)).sum / logs.length)
      ∧ |(getInsights logs climates).summary.averageWheezing
          - (logs.map (fun l => l.symptoms.wheezing)).sum / logs.length|
        ≤ (logs.map (fun l => l.symptoms.wheezing)).sum / logs.length / 2 ^ 53
      ∧ (getInsights logs climates).summary.averageCough
        = roundDouble ((logs.map (fun l => l.symptoms.cough)).sum / logs.length)
      ∧ |(getInsights logs climates).summary.averageCough
          - (logs.map (fun l => l.symptoms.cough)).sum / logs.length|
        ≤ (logs.map (fun l => l.symptoms.cough)).sum / logs.length / 2 ^ 53
      ∧ (getInsights logs climates).summary.mild
        = logs.countP (fun l => decide (l.severity = some .mild))
      ∧ (getInsights logs climates).summary.moderate
        = logs.countP (fun l => decide (l.severity = some .moderate))
      ∧ (getInsights logs climates).summary.severe
        = logs.countP (fun l => decide (l.severity = some .severe)) := by
  obtain ⟨hw, hwerr⟩ := averageOrZero_foldl (fun l => l.symptoms.wheezing) logs hne hsize
    (fun l hl => (hlevels l hl).1)
  obtain ⟨hc, hcerr⟩ := averageOrZero_foldl (fun l => l.symptoms.cough) logs hne hsize
    (fun l hl => (hlevels l hl).2)
  have hw' : (getInsights logs climates).summary.averageWheezing
      = roundDouble ((logs.map (fun l => l.symptoms.wheezing)).sum / logs.length) := hw
  have hc' : (getInsights logs climates).summary.averageCough
      = roundDouble ((logs.map (fun l => l.symptoms.cough)).sum / logs.length) := hc
  refine ⟨rfl, ?_, hw', ?_, hc', ?_, ?_, ?_, ?_⟩
  · simp [getInsights, summarize, List.countP_eq_length_filter]
  · rw [hw']
    exact hwerr
  · rw [hc']
    exact hcerr
  · simp [getInsights, summarize, List.countP_eq_length_filter]
  · simp [getInsights, summarize, List.countP_eq_length_filter]
  · simp [getInsights, summarize, List.countP_eq_length_filter]

/-- C17 at the history of three entries with wheezing 1, 0, 0 and cough 2, 0,
5, one of them an attack: the quotients are 1/3 and 7/3. -/
theorem getInsights_summary_witness :
    (getInsights [entryLevels 1 2, attackAt 0, entryLevels 0 5] []).summary.totalLogs
        = [entryLevels 1 2, attackAt 0, entryLevels 0 5].length
      ∧ (getInsights [entryLevels 1 2, attackAt 0, entryLevels 0 5] []).summary.attackCount
        = [entryLevels 1 2, attackAt 0, entryLevels 0 5].countP (fun l => l.symptoms.attack)
      ∧ (getInsights [entryLevels 1 2, attackAt 0, entryLevels 0 5] []).summary.averageWheezing
        = roundDouble (([entryLevels 1 2, attackAt 0, entryLevels 0 5].map
            (fun l => l.symptoms.wheezing)).sum
            / [entryLevels 1 2, attackAt 0, entryLevels 0 5].length)
      ∧ |(getInsights [entryLevels 1 2, attackAt 0, entryLevels 0 5] []).summary.averageWheezing
          - ([entryLevels 1 2, attackAt 0, entryLevels 0 5].map
              (fun l => l.symptoms.wheezing)).sum
            / [entryLevels 1 2, attackAt 0, entryLevels 0 5].length|
        ≤ ([entryLevels 1 2, attackAt 0, entryLevels 0 5].map
              (fun l => l.symptoms.wheezing)).sum
            / [entryLevels 1 2, attackAt 0, entryLevels 0 5].length / 2 ^ 53
      ∧ (getInsights [entryLevels 1 2, attackAt 0, entryLevels 0 5] []).summary.averageCough
        = roundDouble (([entryLevels 1 2, attackAt 0, entryLevels 0 5].map
            (fun l => l.symptoms.cough)).sum
            / [entryLevels 1 2, attackAt 0, entryLevels 0 5].length)
      ∧ |(getInsights [entryLevels 1 2, attackAt 0, entryLevels 0 5] []).summary.averageCough
          - ([entryLevels 1 2, attackAt 0, entryLevels 0 5].map
              (fun l => l.symptoms.cough)).sum
            / [entryLevels 1 2, attackAt 0, entryLevels 0 5].length|
        ≤ ([entryLevels 1 2, attackAt 0, entryLevels 0 5].map
              (fun l => l.symptoms.cough)).sum
            / [entryLevels 1 2, attackAt 0, entryLevels 0 5].length / 2 ^ 53
      ∧ (getInsights [entryLevels 1 2, attackAt 0, entryLevels 0 5] []).summary.mild
        = [entryLevels 1 2, attackAt 0, entryLevels 0 5].countP
            (fun l => decide (l.severity = some .mild))
      ∧ (getInsights [entryLevels 1 2, attackAt 0, entryLevels 0 5] []).summary.moderate
        = [entryLevels 1 2, attackAt 0, entryLevels 0 5].countP
            (fun l => decide (l.severity = some .moderate))
      ∧ (getInsights [entryLevels 1 2, attackAt 0, entryLevels 0 5] []).summary.severe
        = [entryLevels 1 2, attackAt 0, entryLevels 0 5].countP
            (fun l => decide (l.severity = some .severe)) :=
  getInsights_summary [entryLevels 1 2, attackAt 0, entryLevels 0 5] [] (by simp)
    (by norm_num) (by decide)

/-- The AQI block is determined by the attack entries of the history. -/
theorem aqi_eq_of_attacks (logs : List SymptomLog) (climates : List ClimateData) :
    (getInsights logs climates).aqi
      = aqiCorrelation
          (((logs.filter (fun l => l.symptoms.attack)).filter
            (fun l => joinedHighAqi climates l)).length)
          ((logs.filter (fun l => l.symptoms.attack)).length) := by
  obtain ⟨ht, hh⟩ := aqiLoop_counts climates logs
  simp only [getInsights, ht, hh, attackTotal, highAqiAttackTotal, List.filter_filter]
  congr 2
  apply List.filter_congr
  intro l _
  exact Bool.and_comm _ _

/-- C18: two histories with the same attack entries in the same order, that
is, histories that differ only by entries with `attack` false added or
removed, have the same `highAqiAttackPercentage` and the same message, for
any sample list. -/
theorem aqi_ignores_non_attacks (logs logs' : List SymptomLog) (climates : List ClimateData)
    (h : logs.filter (fun l => l.symptoms.attack) = logs'.filter (fun l => l.symptoms.attack)) :
    (getInsights logs climates).aqi.highAqiAttackPercentage
        = (getInsights logs' climates).aqi.highAqiAttackPercentage
      ∧ (getInsights logs climates).aqi.message = (getInsights logs' climates).aqi.message := by
  rw [aqi_eq_of_attacks, aqi_eq_of_attacks, h]
  exact ⟨rfl, rfl⟩

/-- C18 at a history with one attack entry, before and after an entry without
attack, dated next to a high-AQI sample, is added in front of it. -/
theorem aqi_ignores_non_attacks_witness :
    (getInsights [attackAt 0] [⟨0, .num 120⟩]).aqi.highAqiAttackPercentage
        = (getInsights [entryWith [.dust], attackAt 0] [⟨0, .num 120⟩]).aqi.highAqiAttackPercentage
      ∧ (getInsights [attackAt 0] [⟨0, .num 120⟩]).aqi.message
        = (getInsights [entryWith [.dust], attackAt 0] [⟨0, .num 120⟩]).aqi.message :=
  aqi_ignores_non_attacks [attackAt 0] [entryWith [.dust], attackAt 0] [⟨0, .num 120⟩]
    (by decide)

/-! ### The items of `mostCommon` -/

/-- The keys of the count table are the tags logged, each once. -/
theorem triggerCounts_keys (logs : List SymptomLog) :
    ((triggerCounts logs).map Prod.fst).Nodup
      ∧ ∀ k, k ∈ (triggerCounts logs).map Prod.fst ↔ k ∈ loggedTriggers logs := by
  obtain ⟨hmem, hord, -⟩ := foldl_bumpCount_spec (loggedTriggers logs)
  rw [triggerCounts_eq_foldl]
  refine ⟨?_, hmem⟩
  exact hord.imp (fun {a b} h hab => by
    rw [hab] at h
    exact Nat.lt_irrefl _ h)

/-- An item of `mostCommon` comes from one of the first five entries of the
sorted count table. -/
theorem mem_mostCommon (logs : List SymptomLog) (x : TriggerStat) (hx : x ∈ mostCommon logs) :
    ∃ e ∈ ((triggerCounts logs).insertionSort countGe).take 5,
      x = { trigger := e.1, count := e.2,
            percentage := mathRound ((100 * e.2 : ℚ) / logs.length) } := by
  unfold mostCommon at hx
  obtain ⟨e, he, rfl⟩ := List.mem_map.mp hx
  exact ⟨e, he, rfl⟩

/-- The tags of `mostCommon` are the keys of the first five entries of the
sorted count table. -/
theorem mostCommon_triggers (logs : List SymptomLog) :
    (mostCommon logs).map (fun x => x.trigger)
      = (((triggerCounts logs).insertionSort countGe).take 5).map Prod.fst := by
  unfold mostCommon
  rw [List.map_map]
  rfl

/-- When no entry lists a tag twice, the number of times a tag was logged is
the number of entries that list it. -/
theorem count_loggedTriggers (logs : List SymptomLog)
    (hnd : ∀ l ∈ logs, l.symptoms.triggers.Nodup) (t : Trigger) :
    (loggedTriggers logs).count t = entriesContaining logs t := by
  unfold loggedTriggers entriesContaining
  induction logs with
  | nil => simp
  | cons l rest ih =>
    have hl : l.symptoms.triggers.Nodup := hnd l (List.mem_cons_self _ _)
    have hrest := ih (fun m hm => hnd m (List.mem_cons_of_mem _ hm))
    rw [List.flatMap_cons, List.count_append, hrest, List.countP_cons,
      List.count_eq_of_nodup hl]
    by_cases hm : t ∈ l.symptoms.triggers
    · simp [hm]; omega
    · simp [hm]

/-- The rounded percentage of a part of a whole is at most 100. -/
theorem mathRound_percent_le (a b : Nat) (hab : a ≤ b) :
    mathRound ((100 * a : ℚ) / b) ≤ 100 := by
  have hx : (100 * a : ℚ) / b ≤ 100 := by
    rcases Nat.eq_zero_or_pos b with hb | hb
    · subst hb
      simp
    · have hbq : (0 : ℚ) < b := by exact_mod_cast hb
      rw [div_le_iff₀ hbq]
      have : (a : ℚ) ≤ b := by exact_mod_cast hab
      linarith
  have hlt : mathRound ((100 * a : ℚ) / b) < 101 := by
    unfold mathRound
    rw [Int.floor_lt]
    push_cast
    linarith
  omega

/-- C13, against the claim as written: in the history of the single entry
whose triggers are pollen, pollen the tag is counted twice and its percentage
is 200, although one entry of one lists it. -/
theorem mostCommon_percentage_over_100 :
    mostCommon [entryWith [.pollen, .pollen]] = [⟨.pollen, 2, 200⟩]
      ∧ entriesContaining [entryWith [.pollen, .pollen]] .pollen = 1
      ∧ [entryWith [.pollen, .pollen]].length = 1 := by
  refine ⟨?_, by decide, rfl⟩
  have h : ((triggerCounts [entryWith [.pollen, .pollen]]).insertionSort countGe).take 5
      = [(.pollen, 2)] := by decide
  unfold mostCommon
  rw [h]
  norm_num [mathRound]

/-- C13, amended: for every history in which no entry lists a tag twice, and
every item of `mostCommon`, the count of the item is the number of entries
whose triggers contain its tag, its percentage is 100 times that number
divided by the number of entries, rounded to the nearest integer, and the
percentage is at most 100. With pollen and dust in one entry and pollen in a
second, pollen has 100 and dust 50: the denominator is the two entries, not
the three tags logged. -/
theorem mostCommon_percentage (logs : List SymptomLog)
    (hnd : ∀ l ∈ logs, l.symptoms.triggers.Nodup) :
    (∀ x ∈ mostCommon logs,
      x.count = entriesContaining logs x.trigger
        ∧ x.percentage = mathRound ((100 * entriesContaining logs x.trigger : ℚ) / logs.length)
        ∧ 2 * |100 * (entriesContaining logs x.trigger : Int) - x.percentage * logs.length|
            ≤ logs.length
        ∧ x.percentage ≤ 100)
      ∧ mostCommon [entryWith [.pollen, .dust], entryWith [.pollen]]
        = [⟨.pollen, 2, 100⟩, ⟨.dust, 1, 50⟩] := by
  refine ⟨?_, ?_⟩
  swap
  · have h : ((triggerCounts [entryWith [.pollen, .dust], entryWith [.pollen]]).insertionSort
        countGe).take 5 = [(.pollen, 2), (.dust, 1)] := by decide
    unfold mostCommon
    rw [h]
    norm_num [mathRound, Int.floor_eq_iff]
  intro x hx
  obtain ⟨e, he, rfl⟩ := mem_mostCommon logs x hx
  have he' : e ∈ triggerCounts logs :=
    (List.perm_insertionSort countGe _).mem_iff.mp (List.mem_of_mem_take he)
  have hcount : e.2 = entriesContaining logs e.1 := by
    rw [triggerCounts_count logs e he', count_loggedTriggers logs hnd]
  have hle : entriesContaining logs e.1 ≤ logs.length := List.countP_le_length _
  have hpos : logs.length ≠ 0 := by
    intro h0
    have : logs = [] := List.length_eq_zero.mp h0
    subst this
    simp [triggerCounts] at he'
  dsimp only
  rw [hcount]
  refine ⟨rfl, rfl, ?_, mathRound_percent_le _ _ hle⟩
  have := mathRound_div_near (100 * entriesContaining logs e.1) logs.length hpos
  push_cast at this
  exact this

/-- C13 at the history of two entries, one listing pollen and dust and one
listing pollen. -/
theorem mostCommon_percentage_witness :
    (∀ x ∈ mostCommon [entryWith [.pollen, .dust], entryWith [.pollen]],
      x.count = entriesContaining [entryWith [.pollen, .dust], entryWith [.pollen]] x.trigger
        ∧ x.percentage
          = mathRound ((100 * entriesContaining [entryWith [.pollen, .dust],
              entryWith [.pollen]] x.trigger : ℚ)
              / [entryWith [.pollen, .dust], entryWith [.pollen]].length)
        ∧ 2 * |100 * (entriesContaining [entryWith [.pollen, .dust], entryWith [.pollen]]
              x.trigger : Int)
            - x.percentage * [entryWith [.pollen, .dust], entryWith [.pollen]].length|
            ≤ [entryWith [.pollen, .dust], entryWith [.pollen]].length
        ∧ x.percentage ≤ 100)
      ∧ mostCommon [entryWith [.pollen, .dust], entryWith [.pollen]]
        = [⟨.pollen, 2, 100⟩, ⟨.dust, 1, 50⟩] :=
  mostCommon_percentage [entryWith [.pollen, .dust], entryWith [.pollen]] (by decide)

/-- The count table has one entry for each distinct tag logged. -/
theorem triggerCounts_length (logs : List SymptomLog) :
    (triggerCounts logs).length = (loggedTriggers logs).toFinset.card := by
  obtain ⟨hnd, hmem⟩ := triggerCounts_keys logs
  have hset : ((triggerCounts logs).map Prod.fst).toFinset = (loggedTriggers logs).toFinset := by
    ext k
    simp only [List.mem_toFinset]
    exact hmem k
  rw [← hset, List.toFinset_card_of_nodup hnd, List.length_map]

/-- C14: `mostCommon` has min(5, number of distinct tags logged) items, no
tag occurs in it twice, every tag in it was logged, and a logged tag that is
left out was logged no more often than any tag in the list. Of six tags, one
logged twice, the list keeps that one and the first four of the others. -/
theorem mostCommon_top_five (logs : List SymptomLog) :
    (mostCommon logs).length = min 5 (loggedTriggers logs).toFinset.card
      ∧ ((mostCommon logs).map (fun x => x.trigger)).Nodup
      ∧ (∀ x ∈ mostCommon logs, x.trigger ∈ loggedTriggers logs)
      ∧ (∀ t ∈ loggedTriggers logs, t ∉ (mostCommon logs).map (fun x => x.trigger) →
          ∀ x ∈ mostCommon logs, (loggedTriggers logs).count t ≤ x.count)
      ∧ (mostCommon [entryWith [.pollen, .dust, .smoke, .exercise, .stress, .weather,
            .weather]]).map (fun x => (x.trigger, x.count))
        = [(.weather, 2), (.pollen, 1), (.dust, 1), (.smoke, 1), (.exercise, 1)] := by
  obtain ⟨hnd, hmem⟩ := triggerCounts_keys logs
  have hperm := List.perm_insertionSort countGe (triggerCounts logs)
  refine ⟨?_, ?_, ?_, ?_, by decide⟩
  · unfold mostCommon
    rw [List.length_map, List.length_take, List.length_insertionSort, triggerCounts_length]
  · rw [mostCommon_triggers]
    have hnd' : (((triggerCounts logs).insertionSort countGe).map Prod.fst).Nodup :=
      (hperm.map Prod.fst).nodup_iff.mpr hnd
    exact hnd'.sublist ((List.take_sublist 5 _).map Prod.fst)
  · intro x hx
    obtain ⟨e, he, rfl⟩ := mem_mostCommon logs x hx
    have he' : e ∈ triggerCounts logs := hperm.mem_iff.mp (List.mem_of_mem_take he)
    exact (hmem e.1).mp (List.mem_map.mpr ⟨e, he', rfl⟩)
  · intro t ht hout x hx
    obtain ⟨a, ha, rfl⟩ := mem_mostCommon logs x hx
    obtain ⟨e, he, rfl⟩ := List.mem_map.mp ((hmem t).mpr ht)
    have hes : e ∈ (triggerCounts logs).insertionSort countGe := hperm.mem_iff.mpr he
    rw [mostCommon_triggers] at hout
    have hnot : e ∉ ((triggerCounts logs).insertionSort countGe).take 5 :=
      fun h => hout (List.mem_map.mpr ⟨e, h, rfl⟩)
    have hdrop : e ∈ ((triggerCounts logs).insertionSort countGe).drop 5 := by
      rw [← List.take_append_drop 5 ((triggerCounts logs).insertionSort countGe),
        List.mem_append] at hes
      exact hes.resolve_left hnot
    have hs : ((triggerCounts logs).insertionSort countGe).Pairwise countGe :=
      List.sorted_insertionSort countGe _
    rw [← List.take_append_drop 5 ((triggerCounts logs).insertionSort countGe),
      List.pairwise_append] at hs
    have hge : e.2 ≤ a.2 := hs.2.2 a ha e hdrop
    rw [← triggerCounts_count logs e he]
    exact hge

/-! ### The time patterns -/

/-- Stability of the sort by count: the items of any one count stand in the
sorted list in the order they have in the list. -/
theorem insertionSort_filter_byCount {β : Type} (cnt : β → Nat) (l : List β) (v : Nat) :
    (l.insertionSort (byCount cnt)).filter (fun e => decide (cnt e = v))
      = l.filter (fun e => decide (cnt e = v)) := by
  have hpw : (l.filter (fun e => decide (cnt e = v))).Pairwise (byCount cnt) := by
    apply List.pairwise_of_forall_mem_list
    intro a ha b hb
    have ha' := (List.mem_filter.mp ha).2
    have hb' := (List.mem_filter.mp hb).2
    simp only [decide_eq_true_eq] at ha' hb'
    unfold byCount
    omega
  have hsub := List.sublist_insertionSort hpw (List.filter_sublist l)
  have h2 := hsub.filter (fun e => decide (cnt e = v))
  rw [List.filter_filter] at h2
  simp only [Bool.and_self] at h2
  have hperm := (List.perm_insertionSort (byCount cnt) l).filter (fun e => decide (cnt e = v))
  exact (h2.eq_of_length hperm.length_eq.symm).symm

/-- A list whose items stand in increasing order of an index is sorted by
count into the order: larger count first, and of equal counts the lower index
first. -/
theorem insertionSort_byCount_order {β : Type} (cnt idx : β → Nat) (l : List β)
    (hidx : l.Pairwise (fun x y => idx x < idx y)) :
    (l.insertionSort (byCount cnt)).Pairwise
      (fun x y => cnt y < cnt x ∨ (cnt y = cnt x ∧ idx x < idx y)) := by
  rw [List.pairwise_iff_forall_sublist]
  intro a b hab
  have hs : (l.insertionSort (byCount cnt)).Pairwise (byCount cnt) :=
    List.sorted_insertionSort (byCount cnt) _
  have hge : cnt b ≤ cnt a := (List.pairwise_iff_forall_sublist.mp hs) hab
  by_cases hlt : cnt b < cnt a
  · exact Or.inl hlt
  · have heq : cnt b = cnt a := by omega
    refine Or.inr ⟨heq, ?_⟩
    have hf := hab.filter (fun e => decide (cnt e = cnt a))
    rw [insertionSort_filter_byCount] at hf
    have hfl : [a, b].filter (fun e => decide (cnt e = cnt a)) = [a, b] := by
      simp [List.filter_cons, heq]
    rw [hfl] at hf
    exact (List.pairwise_iff_forall_sublist.mp hidx) (hf.trans (List.filter_sublist _))

/-- An item that the cut leaves out comes, in that order, after every item
that the cut keeps. -/
theorem take_insertionSort_byCount {β : Type} (cnt idx : β → Nat) (l : List β) (k : Nat)
    (hidx : l.Pairwise (fun x y => idx x < idx y))
    (x : β) (hx : x ∈ (l.insertionSort (byCount cnt)).take k)
    (y : β) (hy : y ∈ l) (hout : y ∉ (l.insertionSort (byCount cnt)).take k) :
    cnt y < cnt x ∨ (cnt y = cnt x ∧ idx x < idx y) := by
  have hys : y ∈ l.insertionSort (byCount cnt) :=
    (List.perm_insertionSort (byCount cnt) l).mem_iff.mpr hy
  have hdrop : y ∈ (l.insertionSort (byCount cnt)).drop k := by
    rw [← List.take_append_drop k (l.insertionSort (byCount cnt)), List.mem_append] at hys
    exact hys.resolve_left hout
  have hs := insertionSort_byCount_order cnt idx l hidx
  rw [← List.take_append_drop k (l.insertionSort (byCount cnt)), List.pairwise_append] at hs
  exact hs.2.2 x hx y hdrop

/-- The counters keep their number under `pattern[i]++`. -/
theorem length_bumpAt (l : List Nat) (i : Nat) : (bumpAt l i).length = l.length := by
  induction l generalizing i with
  | nil => rfl
  | cons c rest ih =>
    cases i with
    | zero => rfl
    | succ i => simp [bumpAt, ih]

/-- The counter read at `j` after `pattern[i]++`. -/
theorem getD_bumpAt (l : List Nat) (i j : Nat) (hj : j < l.length) :
    (bumpAt l i).getD j 0 = l.getD j 0 + (if i = j then 1 else 0) := by
  induction l generalizing i j with
  | nil => simp at hj
  | cons c rest ih =>
    cases i with
    | zero =>
      cases j with
      | zero => simp [bumpAt]
      | succ j => simp [bumpAt]
    | succ i =>
      cases j with
      | zero => simp [bumpAt]
      | succ j =>
        have hj' : j < rest.length := by simpa using hj
        simp only [bumpAt, List.getD_cons_succ, ih i j hj']
        simp

/-- The counters after a loop of `pattern[f(log)]++`: their number is kept and
each has grown by the number of logs sent to its index. -/
theorem foldl_bumpAt (f : SymptomLog → Nat) (logs : List SymptomLog) (init : List Nat) :
    (logs.foldl (fun pattern log => bumpAt pattern (f log)) init).length = init.length
      ∧ ∀ j, j < init.length →
          (logs.foldl (fun pattern log => bumpAt pattern (f log)) init).getD j 0
            = init.getD j 0 + logs.countP (fun l => decide (f l = j)) := by
  induction logs generalizing init with
  | nil => simp
  | cons l rest ih =>
    obtain ⟨hlen, hget⟩ := ih (bumpAt init (f l))
    rw [List.foldl_cons]
    refine ⟨by rw [hlen, length_bumpAt], ?_⟩
    intro j hj
    rw [hget j (by rw [length_bumpAt]; exact hj), getD_bumpAt init (f l) j hj,
      List.countP_cons]
    by_cases h : f l = j
    · simp [h]; omega
    · simp [h]

/-- The items built from an array of counters: the item of hour `h` holds the
counter at `h - start`. -/
theorem mem_mapWithIndex_hour (l : List Nat) (start : Nat) (y : HourStat) :
    y ∈ mapWithIndex (fun count hour => ({ hour := hour, count := count } : HourStat)) start l
      ↔ start ≤ y.hour ∧ y.hour < start + l.length ∧ y.count = l.getD (y.hour - start) 0 := by
  induction l generalizing start with
  | nil => simp [mapWithIndex]; omega
  | cons c rest ih =>
    simp only [mapWithIndex, List.mem_cons, ih, List.length_cons]
    constructor
    · rintro (h | ⟨h1, h2, h3⟩)
      · subst h
        simp
      · refine ⟨by omega, by omega, ?_⟩
        have : y.hour - start = (y.hour - (start + 1)) + 1 := by omega
        rw [h3, this, List.getD_cons_succ]
    · rintro ⟨h1, h2, h3⟩
      by_cases h0 : y.hour = start
      · left
        rw [h0, Nat.sub_self, List.getD_cons_zero] at h3
        cases y
        simp_all
      · right
        refine ⟨by omega, by omega, ?_⟩
        have : y.hour - start = (y.hour - (start + 1)) + 1 := by omega
        rw [h3, this, List.getD_cons_succ]

/-- The items built from an array of counters stand in increasing order of
their hour. -/
theorem pairwise_mapWithIndex_hour (l : List Nat) (start : Nat) :
    (mapWithIndex (fun count hour => ({ hour := hour, count := count } : HourStat)) start
      l).Pairwise (fun x y => x.hour < y.hour) := by
  induction l generalizing start with
  | nil => simp [mapWithIndex]
  | cons c rest ih =>
    simp only [mapWithIndex, List.pairwise_cons]
    refine ⟨?_, ih (start + 1)⟩
    intro y hy
    have := ((mem_mapWithIndex_hour rest (start + 1) y).mp hy).1
    show start < y.hour
    omega

/-- The map with index keeps the number of elements. -/
theorem length_mapWithIndex {α β : Type} (f : α → Nat → β) (start : Nat) (l : List α) :
    (mapWithIndex f start l).length = l.length := by
  induction l generalizing start with
  | nil => rfl
  | cons a rest ih => simp [mapWithIndex, ih]

/-- Every counter of a fresh array of zeros reads 0. -/
theorem getD_replicate_zero (n j : Nat) : (List.replicate n 0).getD j 0 = 0 := by
  induction n generalizing j with
  | zero => simp
  | succ n ih =>
    cases j with
    | zero => simp [List.replicate_succ]
    | succ j => simp [List.replicate_succ]

/-- The array `hourlyPattern` has 24 counters, and the counter of an hour is
the number of entries at that hour. -/
theorem hourlyPattern_spec (clock : Clock) (logs : List SymptomLog) :
    (hourlyPattern clock logs).length = 24
      ∧ ∀ h, h < 24 → (hourlyPattern clock logs).getD h 0 = entriesAtHour clock logs h := by
  obtain ⟨hlen, hget⟩ := foldl_bumpAt (fun l => (clock.getHours l.date : Nat)) logs
    (List.replicate 24 0)
  refine ⟨by simpa using hlen, ?_⟩
  intro h hh
  have := hget h (by simpa using hh)
  rw [getD_replicate_zero, zero_add] at this
  exact this

/-- The array `dailyPattern` has 7 counters, and the counter of a day is the
number of entries on that day. -/
theorem dailyPattern_spec (clock : Clock) (logs : List SymptomLog) :
    (dailyPattern clock logs).length = 7
      ∧ ∀ d, d < 7 → (dailyPattern clock logs).getD d 0 = entriesOnDay clock logs d := by
  obtain ⟨hlen, hget⟩ := foldl_bumpAt (fun l => (clock.getDay l.date : Nat)) logs
    (List.replicate 7 0)
  refine ⟨by simpa using hlen, ?_⟩
  intro d hd
  have := hget d (by simpa using hd)
  rw [getD_replicate_zero, zero_add] at this
  exact this

/-- The hour items: one for each hour below 24, holding the number of entries
at that hour. -/
theorem mem_hourItems (clock : Clock) (logs : List SymptomLog) (y : HourStat) :
    y ∈ hourItems clock logs ↔ y.hour < 24 ∧ y.count = entriesAtHour clock logs y.hour := by
  obtain ⟨hlen, hget⟩ := hourlyPattern_spec clock logs
  unfold hourItems
  rw [mem_mapWithIndex_hour, hlen]
  constructor
  · rintro ⟨-, h2, h3⟩
    have h24 : y.hour < 24 := by omega
    exact ⟨h24, by rw [h3, Nat.sub_zero, hget _ h24]⟩
  · rintro ⟨h1, h2⟩
    exact ⟨Nat.zero_le _, by omega, by rw [h2, Nat.sub_zero, hget _ h1]⟩

/-- The day items: one for each day name, holding the number of entries on the
day of its index. -/
theorem mem_dayItems (clock : Clock) (logs : List SymptomLog) (y : DayStat) :
    y ∈ dayItems clock logs
      ↔ y.day ∈ dayNames ∧ y.count = entriesOnDay clock logs (dayNames.indexOf y.day) := by
  obtain ⟨-, hget⟩ := dailyPattern_spec clock logs
  have h0 := hget 0 (by omega)
  have h1 := hget 1 (by omega)
  have h2 := hget 2 (by omega)
  have h3 := hget 3 (by omega)
  have h4 := hget 4 (by omega)
  have h5 := hget 5 (by omega)
  have h6 := hget 6 (by omega)
  obtain ⟨day, count⟩ := y
  simp only [dayItems, dayNames, mapWithIndex, h0, h1, h2, h3, h4, h5, h6, List.mem_cons,
    DayStat.mk.injEq, List.mem_nil_iff, or_false, zero_add, Nat.reduceAdd]
  constructor
  · rintro (⟨rfl, rfl⟩ | ⟨rfl, rfl⟩ | ⟨rfl, rfl⟩ | ⟨rfl, rfl⟩ | ⟨rfl, rfl⟩ | ⟨rfl, rfl⟩
      | ⟨rfl, rfl⟩) <;> exact ⟨by simp, rfl⟩
  · rintro ⟨(rfl | rfl | rfl | rfl | rfl | rfl | rfl), h⟩ <;> simp [h]

/-- The day items stand in the order of the day names. -/
theorem pairwise_dayItems (clock : Clock) (logs : List SymptomLog) :
    (dayItems clock logs).Pairwise
      (fun x y => dayNames.indexOf x.day < dayNames.indexOf y.day) := by
  simp only [dayItems, dayNames, mapWithIndex, List.pairwise_cons, List.mem_cons,
    List.mem_nil_iff, or_false, forall_eq_or_imp, forall_eq, List.Pairwise.nil, and_true,
    false_imp_iff, implies_true]
  decide

/-- C15: `peakHours` lists three of the 24 hour buckets and `peakDays` three
of the 7 day buckets, each item with the number of entries of its bucket, by
non-increasing count with equal counts in the order of the bucket index; and
a bucket left out of a list has, against every item of the list, a smaller
count or the same count and a higher index. For four entries at 00:00, 01:00,
01:00 and 23:59 UTC the peak hours are 1, 0 and 23. -/
theorem peaks_top_three (clock : Clock) (logs : List SymptomLog) :
    ((peakHours clock logs).length = 3
        ∧ (∀ x ∈ peakHours clock logs,
            x.hour < 24 ∧ x.count = entriesAtHour clock logs x.hour)
        ∧ (peakHours clock logs).Pairwise
            (fun x y => y.count < x.count ∨ (y.count = x.count ∧ x.hour < y.hour))
        ∧ (∀ h, h < 24 → h ∉ (peakHours clock logs).map (fun x => x.hour) →
            ∀ x ∈ peakHours clock logs,
              entriesAtHour clock logs h < x.count
                ∨ (entriesAtHour clock logs h = x.count ∧ x.hour < h)))
      ∧ ((peakDays clock logs).length = 3
        ∧ (∀ x ∈ peakDays clock logs,
            x.day ∈ dayNames ∧ x.count = entriesOnDay clock logs (dayNames.indexOf x.day))
        ∧ (peakDays clock logs).Pairwise
            (fun x y => y.count < x.count
              ∨ (y.count = x.count ∧ dayNames.indexOf x.day < dayNames.indexOf y.day))
        ∧ (∀ name ∈ dayNames, name ∉ (peakDays clock logs).map (fun x => x.day) →
            ∀ x ∈ peakDays clock logs,
              entriesOnDay clock logs (dayNames.indexOf name) < x.count
                ∨ (entriesOnDay clock logs (dayNames.indexOf name) = x.count
                  ∧ dayNames.indexOf x.day < dayNames.indexOf name)))
      ∧ peakHours utcClock [entryAt 0, entryAt 3600000, entryAt 3600001, entryAt (-1)]
        = [⟨1, 2⟩, ⟨0, 1⟩, ⟨23, 1⟩] := by
  have hhours : (hourItems clock logs).Pairwise (fun x y => x.hour < y.hour) :=
    pairwise_mapWithIndex_hour _ 0
  have hdays := pairwise_dayItems clock logs
  have hpermH := List.perm_insertionSort (byCount HourStat.count) (hourItems clock logs)
  have hpermD := List.perm_insertionSort (byCount DayStat.count) (dayItems clock logs)
  refine ⟨⟨?_, ?_, ?_, ?_⟩, ⟨?_, ?_, ?_, ?_⟩, by decide⟩
  · unfold peakHours hourItems
    rw [List.length_take, List.length_insertionSort, length_mapWithIndex,
      (hourlyPattern_spec clock logs).1]
    rfl
  · intro x hx
    exact (mem_hourItems clock logs x).mp (hpermH.mem_iff.mp (List.mem_of_mem_take hx))
  · exact (insertionSort_byCount_order HourStat.count HourStat.hour _ hhours).sublist
      (List.take_sublist 3 _)
  · intro h hh hout x hx
    have hy : (⟨h, entriesAtHour clock logs h⟩ : HourStat) ∈ hourItems clock logs :=
      (mem_hourItems clock logs _).mpr ⟨hh, rfl⟩
    have hout' : (⟨h, entriesAtHour clock logs h⟩ : HourStat)
        ∉ ((hourItems clock logs).insertionSort (byCount HourStat.count)).take 3 :=
      fun hin => hout (List.mem_map.mpr ⟨_, hin, rfl⟩)
    exact take_insertionSort_byCount HourStat.count HourStat.hour _ 3 hhours x hx _ hy hout'
  · unfold peakDays dayItems
    rw [List.length_take, List.length_insertionSort, length_mapWithIndex]
    rfl
  · intro x hx
    exact (mem_dayItems clock logs x).mp (hpermD.mem_iff.mp (List.mem_of_mem_take hx))
  · exact (insertionSort_byCount_order DayStat.count (fun x => dayNames.indexOf x.day) _
      hdays).sublist (List.take_sublist 3 _)
  · intro name hname hout x hx
    have hy : (⟨name, entriesOnDay clock logs (dayNames.indexOf name)⟩ : DayStat)
        ∈ dayItems clock logs := (mem_dayItems clock logs _).mpr ⟨hname, rfl⟩
    have hout' : (⟨name, entriesOnDay clock logs (dayNames.indexOf name)⟩ : DayStat)
        ∉ ((dayItems clock logs).insertionSort (byCount DayStat.count)).take 3 :=
      fun hin => hout (List.mem_map.mpr ⟨_, hin, rfl⟩)
    exact take_insertionSort_byCount DayStat.count (fun x => dayNames.indexOf x.day) _ 3 hdays
      x hx _ hy hout'

/-! ## Ownership -/

/-- The update `$set` of `updateLog` keeps the id and the owner. -/
theorem applySet_owner (doc : SymptomLog) (body : Body) :
    (applySet doc { body with userId := none }).id = doc.id
      ∧ (applySet doc { body with userId := none }).userId = doc.userId := by
  unfold applySet
  cases body.date <;> exact ⟨rfl, rfl⟩

/-- Replacing a document by one that reads the same under `g` keeps what `g`
reads of the collection. -/
theorem map_replaceFirst {γ : Type} (g : SymptomLog → γ) (p : SymptomLog → Bool)
    (f : SymptomLog → SymptomLog) (hf : ∀ d, g (f d) = g d) (store : Store) :
    (replaceFirst p f store).map g = store.map g := by
  induction store with
  | nil => rfl
  | cons d rest ih =>
    unfold replaceFirst
    split_ifs
    · simp [hf]
    · simp [ih]

/-- Replacing a document leaves alone the documents a test `q` selects, when
the document replaced and its replacement are not selected. -/
theorem filter_replaceFirst (q p : SymptomLog → Bool) (f : SymptomLog → SymptomLog)
    (hp : ∀ d, p d = true → q d = false ∧ q (f d) = false) (store : Store) :
    (replaceFirst p f store).filter q = store.filter q := by
  induction store with
  | nil => rfl
  | cons d rest ih =>
    unfold replaceFirst
    split_ifs with h
    · obtain ⟨h1, h2⟩ := hp d h
      simp [List.filter_cons, h1, h2]
    · simp [List.filter_cons, ih]

/-- Removing a document leaves alone the documents a test `q` selects, when the
document removed is not selected. -/
theorem filter_eraseP (q p : SymptomLog → Bool) (hp : ∀ d, p d = true → q d = false)
    (store : Store) : (store.eraseP p).filter q = store.filter q := by
  induction store with
  | nil => rfl
  | cons d rest ih =>
    rw [List.eraseP_cons]
    by_cases h : p d = true
    · simp [h, List.filter_cons, hp d h]
    · simp [h, List.filter_cons, ih]

/-- No document of the collection passes the filter of a user who owns no
entry of the given id. -/
theorem find_foreign (user id : Nat) (store : Store)
    (hforeign : ∀ e ∈ store, e.id = id → e.userId ≠ user) :
    store.find? (fun (d : SymptomLog) => d.id == id && d.userId == user) = none := by
  rw [List.find?_eq_none]
  intro e he
  simp only [Bool.and_eq_true, beq_iff_eq, not_and]
  exact hforeign e he

/-- Whatever the request, `updateLog` leaves the id and the owner of every
entry as they were. -/
theorem storeAfterUpdate_owners (now : Int) (user id : Nat) (body : Body) (store : Store) :
    (storeAfterUpdate now user id body store).map (fun e => (e.id, e.userId))
      = store.map (fun e => (e.id, e.userId)) := by
  unfold storeAfterUpdate updateLog
  dsimp only
  split_ifs
  · cases store.find? (fun (d : SymptomLog) => d.id == id && d.userId == user) with
    | none => rfl
    | some doc =>
      dsimp only
      apply map_replaceFirst
      intro d
      obtain ⟨h1, h2⟩ := applySet_owner d body
      rw [h1, h2]
  · rfl

/-- Whatever the request, `updateLog` leaves the entries of other users as
they were. -/
theorem storeAfterUpdate_others (now : Int) (user id : Nat) (body : Body) (store : Store) :
    (storeAfterUpdate now user id body store).filter (fun e => e.userId != user)
      = store.filter (fun e => e.userId != user) := by
  unfold storeAfterUpdate updateLog
  dsimp only
  split_ifs
  · cases store.find? (fun (d : SymptomLog) => d.id == id && d.userId == user) with
    | none => rfl
    | some doc =>
      dsimp only
      apply filter_replaceFirst
      intro d hd
      simp only [Bool.and_eq_true, beq_iff_eq] at hd
      obtain ⟨-, h2⟩ := applySet_owner d body
      rw [h2]
      simp [hd.2]
  · rfl

/-- Whatever the request, `deleteLog` leaves the entries of other users as
they were. -/
theorem storeAfterDelete_others (user id : Nat) (store : Store) :
    (storeAfterDelete user id store).filter (fun e => e.userId != user)
      = store.filter (fun e => e.userId != user) := by
  unfold storeAfterDelete deleteLog
  dsimp only
  cases store.find? (fun (d : SymptomLog) => d.id == id && d.userId == user) with
  | none => rfl
  | some doc =>
    dsimp only
    apply filter_eraseP
    intro d hd
    simp only [Bool.and_eq_true, beq_iff_eq] at hd
    simp [hd.2]

/-! ## The validation middleware -/

/-- A bad level under the rules of `wheezing` and `cough` yields an error
detail that names the path. -/
theorem numberErrors_bad (path : String) (r : Message) (mm : Message × Message) (v : RawNum)
    (hbad : badLevel v = true) :
    path ∈ (numberErrors path (some r) true 0 10 mm v).map (fun d => d.field) := by
  have hrule : ∀ q : ℚ, (!isInteger q || decide (q < 0) || decide (10 < q)) = true →
      path ∈ (numberRuleErrors path true 0 10 mm q).map (fun d => d.field) := by
    intro q hq
    unfold numberRuleErrors
    by_cases hu : q < -9007199254740991 ∨ 9007199254740991 < q
    · rw [if_pos hu]
      simp
    · rw [if_neg hu]
      simp only [Bool.or_eq_true, Bool.not_eq_true', decide_eq_true_eq] at hq
      simp only [List.map_append, List.mem_append]
      rcases hq with (hq | hq) | hq
      · left; left
        simp [hq]
      · left; right
        simp [hq]
      · right
        simp [hq]
  cases v with
  | absent => simp [numberErrors]
  | other => simp [numberErrors]
  | number q => exact hrule q hbad
  | numericString q => exact hrule q hbad

/-- With an error detail the middleware answers 400 "Validation failed" with
the details, and both routes stop there. -/
theorem validate_of_errors (now : Int) (raw : RawBody) (h : bodyErrors now raw ≠ []) :
    validate now raw = .error ⟨400, "Validation failed", bodyErrors now raw⟩
      ∧ (∀ newId user store, postLog newId now user raw store
          = .rejected ⟨400, "Validation failed", bodyErrors now raw⟩)
      ∧ (∀ user id store, patchLog now user id raw store
          = .rejected ⟨400, "Validation failed", bodyErrors now raw⟩) := by
  have hv : validate now raw = .error ⟨400, "Validation failed", bodyErrors now raw⟩ := by
    unfold validate
    dsimp only
    rw [if_pos h]
  refine ⟨hv, ?_, ?_⟩
  · intro newId user store
    unfold postLog
    rw [hv]
  · intro user id store
    unfold patchLog
    rw [hv]

/-- C20, against the claim as written: the body `{}` has no
`symptoms.wheezing`, and the middleware answers 400 with the single detail
that names `symptoms`; no detail names `symptoms.wheezing`. -/
theorem validate_empty_body :
    badLevel (RawBody.wheezing ⟨.absent, .absent, .absent, .absent⟩) = true
      ∧ validate 0 ⟨.absent, .absent, .absent, .absent⟩
        = .error ⟨400, "Validation failed", [⟨"symptoms", .standard "any.required"⟩]⟩
      ∧ "symptoms.wheezing"
        ∉ rejectedFields (validate 0 ⟨.absent, .absent, .absent, .absent⟩) := by
  refine ⟨rfl, ?_, ?_⟩
  · simp [validate, bodyErrors]
  · simp [validate, bodyErrors, rejectedFields]

/-- C20, amended: for every body that has a `symptoms` object whose
`wheezing` or `cough` is missing, not an integer, below 0 or above 10, the
middleware answers 400 "Validation failed" with details that name the path of
each such level, and neither route goes on to its handler. A body without a
`symptoms` object is answered 400 as well, a detail naming `symptoms`. -/
theorem validate_rejects_bad_level (now : Int) (raw : RawBody) (s : RawSymptoms)
    (hs : raw.symptoms = .object s)
    (hbad : badLevel s.wheezing = true ∨ badLevel s.cough = true) :
    validate now raw = .error ⟨400, "Validation failed", bodyErrors now raw⟩
      ∧ (badLevel s.wheezing = true →
          "symptoms.wheezing" ∈ rejectedFields (validate now raw))
      ∧ (badLevel s.cough = true → "symptoms.cough" ∈ rejectedFields (validate now raw))
      ∧ (∀ newId user store, postLog newId now user raw store
          = .rejected ⟨400, "Validation failed", bodyErrors now raw⟩)
      ∧ (∀ user id store, patchLog now user id raw store
          = .rejected ⟨400, "Validation failed", bodyErrors now raw⟩)
      ∧ (∀ notes date location,
          validate now ⟨.absent, notes, date, location⟩
              = .error ⟨400, "Validation failed", bodyErrors now ⟨.absent, notes, date, location⟩⟩
            ∧ "symptoms" ∈ rejectedFields (validate now ⟨.absent, notes, date, location⟩)) := by
  have hw : badLevel s.wheezing = true →
      "symptoms.wheezing" ∈ (bodyErrors now raw).map (fun d => d.field) := by
    intro h
    have := numberErrors_bad "symptoms.wheezing" (.custom "Wheezing level is required")
      (.custom "Wheezing level must be between 0 and 10",
        .custom "Wheezing level must be between 0 and 10") s.wheezing h
    simp only [bodyErrors, hs, symptomsErrors, List.map_append, List.mem_append]
    exact Or.inl (Or.inl (Or.inl (Or.inl (Or.inl (Or.inl (Or.inl (Or.inl this)))))))
  have hc : badLevel s.cough = true →
      "symptoms.cough" ∈ (bodyErrors now raw).map (fun d => d.field) := by
    intro h
    have := numberErrors_bad "symptoms.cough" (.custom "Cough level is required")
      (.custom "Cough level must be between 0 and 10",
        .custom "Cough level must be between 0 and 10") s.cough h
    simp only [bodyErrors, hs, symptomsErrors, List.map_append, List.mem_append]
    exact Or.inl (Or.inl (Or.inl (Or.inl (Or.inl (Or.inl (Or.inl (Or.inr this)))))))
  have hne : bodyErrors now raw ≠ [] := by
    intro h0
    rcases hbad with h | h
    · have := hw h
      rw [h0] at this
      simp at this
    · have := hc h
      rw [h0] at this
      simp at this
  obtain ⟨hv, hpost, hpatch⟩ := validate_of_errors now raw hne
  refine ⟨hv, ?_, ?_, hpost, hpatch, ?_⟩
  · intro h
    rw [hv]
    exact hw h
  · intro h
    rw [hv]
    exact hc h
  · intro notes date location
    have hne' : bodyErrors now ⟨.absent, notes, date, location⟩ ≠ [] := by
      simp [bodyErrors]
    have hv' := (validate_of_errors now ⟨.absent, notes, date, location⟩ hne').1
    refine ⟨hv', ?_⟩
    rw [hv']
    simp [rejectedFields, bodyErrors]

/-- C20 at the body whose `wheezing` is 11 and whose `cough` is missing. -/
theorem validate_rejects_bad_level_witness :
    validate 0 badBody = .error ⟨400, "Validation failed", bodyErrors 0 badBody⟩
      ∧ (badLevel (RawNum.number 11) = true →
          "symptoms.wheezing" ∈ rejectedFields (validate 0 badBody))
      ∧ (badLevel RawNum.absent = true → "symptoms.cough" ∈ rejectedFields (validate 0 badBody))
      ∧ (∀ newId user store, postLog newId 0 user badBody store
          = .rejected ⟨400, "Validation failed", bodyErrors 0 badBody⟩)
      ∧ (∀ user id store, patchLog 0 user id badBody store
          = .rejected ⟨400, "Validation failed", bodyErrors 0 badBody⟩)
      ∧ (∀ notes date location,
          validate 0 ⟨.absent, notes, date, location⟩
              = .error ⟨400, "Validation failed", bodyErrors 0 ⟨.absent, notes, date, location⟩⟩
            ∧ "symptoms" ∈ rejectedFields (validate 0 ⟨.absent, notes, date, location⟩)) :=
  validate_rejects_bad_level 0 badBody
    ⟨.number 11, .absent, .bool false, .absent, .absent, .absent⟩ rfl (Or.inl (by decide))

/-- A number that passes the rules `.integer().min(0).max(10)` passes the
validators of a symptom level of the model. -/
theorem numberErrors_nil (path : String) (req : Option Message) (mm : Message × Message)
    (v : RawNum) (h : numberErrors path req true 0 10 mm v = []) :
    validOptLevel v.value = true := by
  have hrule : ∀ q : ℚ, numberRuleErrors path true 0 10 mm q = [] → validLevel q = true := by
    intro q hq
    unfold numberRuleErrors at hq
    by_cases hu : q < -9007199254740991 ∨ 9007199254740991 < q
    · rw [if_pos hu] at hq
      simp at hq
    · rw [if_neg hu] at hq
      simp only [List.append_eq_nil, ite_eq_right_iff, List.cons_ne_nil, imp_false,
        Bool.true_and, Bool.not_eq_true', Bool.not_eq_false, not_lt] at hq
      obtain ⟨⟨h1, h2⟩, h3⟩ := hq
      simp [validLevel, h1, h2, h3]
  cases v with
  | absent => rfl
  | other => simp [numberErrors] at h
  | number q => exact hrule q h
  | numericString q => exact hrule q h

/-- A body that the middleware lets through passes the validators that
`updateLog` and `createLog` run on it. -/
theorem validate_ok_validPaths (now : Int) (raw : RawBody) (body : Body)
    (h : validate now raw = .ok body) :
    validPaths now (body.date.getD now) body.symptoms = true := by
  unfold validate at h
  dsimp only at h
  by_cases hne : bodyErrors now raw ≠ []
  · rw [if_pos hne] at h
    cases h
  · rw [if_neg hne] at h
    have h0 : bodyErrors now raw = [] := not_not.mp hne
    cases hc : cleanBody raw with
    | none => rw [hc] at h; cases h
    | some b =>
      rw [hc] at h
      have hb : b = body := by
        injection h
      subst hb
      unfold cleanBody at hc
      cases hsym : raw.symptoms with
      | absent => rw [hsym] at hc; cases hc
      | other => rw [hsym] at hc; cases hc
      | object s =>
        rw [hsym] at hc
        dsimp only at hc
        cases hwv : s.wheezing.value with
        | none => rw [hwv] at hc; cases hc
        | some w =>
          cases hcv : s.cough.value with
          | none => rw [hwv, hcv] at hc; cases hc
          | some c =>
            cases hat : s.attack with
            | absent => rw [hwv, hcv, hat] at hc; cases hc
            | other => rw [hwv, hcv, hat] at hc; cases hc
            | bool a =>
              rw [hwv, hcv, hat] at hc
              injection hc with hc
              subst hc
              simp only [bodyErrors, hsym, symptomsErrors, List.append_eq_nil] at h0
              obtain ⟨⟨⟨⟨⟨⟨⟨⟨hw, hco⟩, -⟩, hbr⟩, hct⟩, -⟩, -⟩, hdate⟩, -⟩ := h0
              have hw' := numberErrors_nil _ _ _ _ hw
              have hco' := numberErrors_nil _ _ _ _ hco
              have hbr' := numberErrors_nil _ _ _ _ hbr
              have hct' := numberErrors_nil _ _ _ _ hct
              rw [hwv] at hw'
              rw [hcv] at hco'
              have hd : (match raw.date with
                  | RawDate.date ms => some ms
                  | _ => none : Option Int).getD now ≤ now := by
                cases hdt : raw.date with
                | absent => simp
                | other => simp
                | date ms =>
                  rw [hdt] at hdate
                  simp only [ite_eq_right_iff, List.cons_ne_nil, imp_false, not_lt] at hdate
                  simpa using hdate
              simp only [validPaths, Bool.and_eq_true, decide_eq_true_eq]
              exact ⟨⟨⟨⟨hd, hw'⟩, hco'⟩, hbr'⟩, hct'⟩

/-- The well-formed body passes the middleware, and the handler receives its
converted values. -/
theorem validate_goodBody :
    validate 0 goodBody = .ok ⟨⟨8, 8, none, none, false, [.pollen]⟩, none, none⟩ := by
  norm_num [validate, bodyErrors, symptomsErrors, numberErrors, numberRuleErrors, isInteger,
    itemErrors, validTriggerNames, goodBody, cleanBody, RawNum.value, Trigger.ofName,
    Trigger.name]
  decide

/-! ## Ownership of entries through the routes -/

/-- C19: when no entry of the given id belongs to the requesting user (the
entry is another user's), `updateLog` with a body that passed validation and
`deleteLog` both throw `NotFoundError` and the collection stays as it was.
For every request, whatever its body holds, `updateLog` leaves the id and the
owner of every entry unchanged, and `updateLog` and `deleteLog` leave the
entries of other users unchanged. Through the route, a request on another
user's entry is answered by the rejection of the middleware or by
`NotFoundError`. -/
theorem owner_only (now : Int) (user id : Nat) (body : Body) (store : Store)
    (hforeign : ∀ e ∈ store, e.id = id → e.userId ≠ user)
    (hvalid : validPaths now (body.date.getD now) body.symptoms = true) :
    updateLog now user id body store = .error .notFound
      ∧ deleteLog user id store = .error .notFound
      ∧ storeAfterUpdate now user id body store = store
      ∧ storeAfterDelete user id store = store
      ∧ (∀ (now' : Int) (user' id' : Nat) (body' : Body) (store' : Store),
          (storeAfterUpdate now' user' id' body' store').map (fun e => (e.id, e.userId))
              = store'.map (fun e => (e.id, e.userId))
            ∧ (storeAfterUpdate now' user' id' body' store').filter (fun e => e.userId != user')
              = store'.filter (fun e => e.userId != user')
            ∧ (storeAfterDelete user' id' store').filter (fun e => e.userId != user')
              = store'.filter (fun e => e.userId != user'))
      ∧ (∀ raw : RawBody, (∃ r, patchLog now user id raw store = .rejected r)
          ∨ patchLog now user id raw store = .handled (.error .notFound)) := by
  have hfind := find_foreign user id store hforeign
  have hupd : updateLog now user id body store = .error .notFound := by
    unfold updateLog
    dsimp only
    rw [if_pos hvalid, hfind]
  have hdel : deleteLog user id store = .error .notFound := by
    unfold deleteLog
    dsimp only
    rw [hfind]
  refine ⟨hupd, hdel, ?_, ?_, ?_, ?_⟩
  · unfold storeAfterUpdate
    rw [hupd]
  · unfold storeAfterDelete
    rw [hdel]
  · intro now' user' id' body' store'
    exact ⟨storeAfterUpdate_owners now' user' id' body' store',
      storeAfterUpdate_others now' user' id' body' store',
      storeAfterDelete_others user' id' store'⟩
  · intro raw
    unfold patchLog
    cases hv : validate now raw with
    | error r => exact Or.inl ⟨r, rfl⟩
    | ok b =>
      right
      dsimp only
      unfold updateLog
      dsimp only
      rw [if_pos (validate_ok_validPaths now raw b hv), hfind]

/-- C19 at the request of user 7 on the entry of id 1 that user 8 owns, with a
body that names a `userId`. -/
theorem owner_only_witness :
    updateLog 0 7 1 severeBody otherUsersStore = .error .notFound
      ∧ deleteLog 7 1 otherUsersStore = .error .notFound
      ∧ storeAfterUpdate 0 7 1 severeBody otherUsersStore = otherUsersStore
      ∧ storeAfterDelete 7 1 otherUsersStore = otherUsersStore
      ∧ (∀ (now' : Int) (user' id' : Nat) (body' : Body) (store' : Store),
          (storeAfterUpdate now' user' id' body' store').map (fun e => (e.id, e.userId))
              = store'.map (fun e => (e.id, e.userId))
            ∧ (storeAfterUpdate now' user' id' body' store').filter (fun e => e.userId != user')
              = store'.filter (fun e => e.userId != user')
            ∧ (storeAfterDelete user' id' store').filter (fun e => e.userId != user')
              = store'.filter (fun e => e.userId != user'))
      ∧ (∀ raw : RawBody, (∃ r, patchLog 0 7 1 raw otherUsersStore = .rejected r)
          ∨ patchLog 0 7 1 raw otherUsersStore = .handled (.error .notFound)) :=
  owner_only 0 7 1 severeBody otherUsersStore (by decide) (by decide)

/-- The owner's request on the same entry succeeds, and the entry keeps its
owner although the body names another. -/
theorem updateLog_by_owner :
    updateLog 0 8 1 severeBody otherUsersStore
      = .ok (⟨1, 8, 0, ⟨10, 10, none, none, true, []⟩, some .mild, false⟩,
          [⟨1, 8, 0, ⟨10, 10, none, none, true, []⟩, some .mild, false⟩]) := by
  norm_num [updateLog, applySet, replaceFirst, validPaths, validLevel, validOptLevel, isInteger,
    severeBody, otherUsersStore]

/-! ## The pre-save step and a severity already present -/

/-- C21, against the claim as written: an entry whose four levels are 10 and
whose severity is already set to mild keeps mild through the pre-save step,
while the severity rule on its symptoms gives severe. -/
theorem preSave_keeps_present_severity :
    (preSave ⟨1, 7, 0, ⟨10, 10, some 10, some 10, false, []⟩, some .mild, false⟩).severity
        = some .mild
      ∧ severityDefault ⟨10, 10, some 10, some 10, false, []⟩ = .severe := by
  refine ⟨rfl, ?_⟩
  norm_num [severityDefault, avgSymptom, orZero]

/-- C21, amended: through the pre-save step an entry with no severity set
gets the severity rule applied to its current symptoms, an entry with a
severity already set keeps it, and in both cases the follow-up flag is
recomputed from the attack flag and that severity; a document built with an
explicit severity carries it into the step. -/
theorem preSave_severity (doc : SymptomLog) (newId : Nat) (now : Int) (d : LogData) :
    (preSave doc).severity
        = (match doc.severity with
           | none => some (severityDefault doc.symptoms)
           | some s => some s)
      ∧ (preSave doc).followUpRequired
        = followUpRule doc.symptoms.attack (preSave doc).severity
      ∧ (preSave (construct newId now d)).severity
        = some (d.severity.getD (severityDefault d.symptoms)) := by
  refine ⟨?_, by rw [preSave_followUp, preSave_symptoms], ?_⟩
  · cases hsev : doc.severity with
    | none =>
      simp only [preSave, hsev, Option.isNone_none, if_true, severityDefault, avgSymptom]
      split_ifs <;> rfl
    | some s => simp [preSave, hsev]
  · cases hsev : d.severity with
    | none => simp [preSave, construct, hsev]
    | some s => simp [preSave, construct, hsev]

/-! ## Severity and the risk level of an entry -/

/-- C24: an entry whose derived severity is moderate or severe has the risk
level high, and either `attack` is true or its overall score is 10; so the
levels medium and low occur only on entries of derived severity mild. -/
theorem severity_implies_high_risk (s : Symptoms)
    (h : severityDefault s = .moderate ∨ severityDefault s = .severe) :
    entryRiskLevel s = .high
      ∧ (s.attack = true ∨ overallScore s = 10)
      ∧ ¬ (entryRiskLevel s = .medium ∨ entryRiskLevel s = .low) := by
  have hkey : s.attack = true ∨ overallScore s = 10 := by
    by_cases hatt : s.attack = true
    · exact Or.inl hatt
    · right
      have hsum : 16 ≤ s.wheezing + s.cough + s.breathlessness.getD 0
          + s.chestTightness.getD 0 := by
        by_contra hlt
        have h4 : ¬ 4 ≤ (s.wheezing + s.cough + s.breathlessness.getD 0
            + s.chestTightness.getD 0) / 4 := by
          intro h4
          apply hlt
          linarith
        have h7 : ¬ 7 ≤ (s.wheezing + s.cough + s.breathlessness.getD 0
            + s.chestTightness.getD 0) / 4 := by
          intro h7
          apply hlt
          linarith
        have hmild : severityDefault s = .mild := by
          simp only [severityDefault, avgSymptom, orZero_eq_getD, ge_iff_le, Bool.or_eq_true,
            decide_eq_true_eq]
          rw [if_neg (by tauto), if_neg h4]
        rw [hmild] at h
        simp at h
      rw [overallScore_eq]
      simp only [hatt, if_false, Bool.false_eq_true]
      rw [min_eq_right]
      linarith
  have hhigh : entryRiskLevel s = .high := by
    unfold entryRiskLevel
    rcases hkey with hatt | h10
    · simp [hatt]
    · norm_num [h10]
  refine ⟨hhigh, hkey, ?_⟩
  rw [hhigh]
  simp

/-- C24 at the entry with wheezing 8, cough 8 and no attack: moderate, and
its risk level is high with overall score 10. -/
theorem severity_implies_high_risk_witness :
    entryRiskLevel ⟨8, 8, none, none, false, []⟩ = .high
      ∧ ((false : Bool) = true ∨ overallScore ⟨8, 8, none, none, false, []⟩ = 10)
      ∧ ¬ (entryRiskLevel ⟨8, 8, none, none, false, []⟩ = .medium
        ∨ entryRiskLevel ⟨8, 8, none, none, false, []⟩ = .low) :=
  severity_implies_high_risk ⟨8, 8, none, none, false, []⟩
    (Or.inl (by norm_num [severityDefault, avgSymptom, orZero]))

/-! ## The environmental recommendation and the rounded percentage -/

/-- The environmental recommendation is in the list exactly when the rounded
percentage exceeds 50. -/
theorem environmentalRec_mem_iff (pct : Int) (mc : List TriggerStat) (n : Nat) :
    environmentalRec ∈ recommend pct mc n ↔ 50 < pct := by
  cases mc <;> by_cases h1 : 50 < pct <;> by_cases h2 : 2 < n <;>
    simp [recommend, h1, h2, environmentalRec, triggerRec, medicalRec]

/-- A rounded percentage above 50 of `h` out of `t` needs more than half. -/
theorem mathRound_gt_50 (h t : Nat) (ht : t ≠ 0)
    (hp : 50 < mathRound ((100 * h : ℚ) / t)) : t < 2 * h := by
  have htq : (0 : ℚ) < t := by exact_mod_cast Nat.pos_of_ne_zero ht
  have h51 : (51 : Int) ≤ mathRound ((100 * h : ℚ) / t) := by omega
  unfold mathRound at h51
  rw [Int.le_floor] at h51
  push_cast at h51
  have hx : (101 : ℚ) / 2 ≤ (100 * h : ℚ) / t := by linarith
  rw [le_div_iff₀ htq] at hx
  have hq : (t : ℚ) < 2 * h := by linarith
  exact_mod_cast hq

/-- C25: when `getInsights` emits the environmental recommendation there is
at least one attack entry and strictly more than half of the attack entries
are joined to a sample with AQI at least 100. -/
theorem environmental_needs_majority (logs : List SymptomLog) (climates : List ClimateData)
    (h : environmentalRec ∈ (getInsights logs climates).recommendations) :
    1 ≤ attackTotal logs
      ∧ attackTotal logs < 2 * highAqiAttackTotal climates logs
      ∧ 50 < (getInsights logs climates).aqi.highAqiAttackPercentage := by
  have hrec : (getInsights logs climates).recommendations
      = recommend (getInsights logs climates).aqi.highAqiAttackPercentage
          (getInsights logs climates).mostCommon
          (getInsights logs climates).summary.attackCount := rfl
  rw [hrec, environmentalRec_mem_iff] at h
  obtain ⟨ht, hh⟩ := aqiLoop_counts climates logs
  have hpct : (getInsights logs climates).aqi.highAqiAttackPercentage
      = (if attackTotal logs = 0 then 0
         else mathRound ((100 * highAqiAttackTotal climates logs : ℚ) / attackTotal logs)) := by
    simp only [getInsights, aqiCorrelation, ht, hh, ne_eq, ite_not]
  by_cases h0 : attackTotal logs = 0
  · rw [hpct, if_pos h0] at h
    omega
  · have h' := h
    rw [hpct, if_neg h0] at h'
    exact ⟨by omega, mathRound_gt_50 _ _ h0 h', h⟩

/-- C25 at the history of one attack entry joined to a sample of AQI 120. -/
theorem environmental_needs_majority_witness :
    1 ≤ attackTotal [attackAt 0]
      ∧ attackTotal [attackAt 0] < 2 * highAqiAttackTotal [⟨0, .num 120⟩] [attackAt 0]
      ∧ 50 < (getInsights [attackAt 0] [⟨0, .num 120⟩]).aqi.highAqiAttackPercentage :=
  environmental_needs_majority [attackAt 0] [⟨0, .num 120⟩] (by
    have hloop : aqiLoop [⟨0, .num 120⟩] [attackAt 0] = ⟨1, 1, [.num 120]⟩ := by decide
    have hrec : (getInsights [attackAt 0] [⟨0, .num 120⟩]).recommendations
        = recommend (getInsights [attackAt 0] [⟨0, .num 120⟩]).aqi.highAqiAttackPercentage
            (getInsights [attackAt 0] [⟨0, .num 120⟩]).mostCommon
            (getInsights [attackAt 0] [⟨0, .num 120⟩]).summary.attackCount := rfl
    rw [hrec, environmentalRec_mem_iff]
    simp only [getInsights, hloop, aqiCorrelation]
    norm_num [mathRound])

/-! ## Monotonicity of `computeRisk` -/

/-- The score of a reading with numeric AQI and pollen, part by part. -/
theorem riskScore_parts (a p : ℚ) (t h : JsVal) :
    riskScore ⟨.num a, .num p, t, h⟩
      = (if 150 ≤ a then 2 else if 100 ≤ a then 1 else 0)
        + (if 3 ≤ p then 2 else if 2 ≤ p then 1 else 0)
        + riskScore ⟨.num 0, .num 0, t, h⟩ := by
  simp only [riskScore, JsVal.withDefault_num, JsVal.ge_num, decide_eq_true_eq]
  generalize ((t.withDefault 25).ge 35 || (t.withDefault 25).le 15) = bt
  generalize ((h.withDefault 60).le 30 || (h.withDefault 60).ge 80) = bh
  by_cases h1 : (150 : ℚ) ≤ a <;> by_cases h2 : (100 : ℚ) ≤ a <;>
  by_cases h3 : (3 : ℚ) ≤ p <;> by_cases h4 : (2 : ℚ) ≤ p <;>
  cases bt <;> cases bh <;> norm_num [h1, h2, h3, h4]

/-- The level is monotone in the score. -/
theorem rank_computeRisk_mono (r₁ r₂ : Reading) (h : riskScore r₁ ≤ riskScore r₂) :
    (computeRisk r₁).rank ≤ (computeRisk r₂).rank := by
  unfold computeRisk
  dsimp only
  split_ifs <;> simp only [RiskLevel.rank] <;> omega

/-- C26: for every temperature and humidity, present or not, if AQI1 ≤ AQI2
and pollen1 ≤ pollen2 then the score of the first reading is at most that of
the second and its level is not higher, in the order Low < Moderate < High. -/
theorem computeRisk_monotone (a₁ a₂ p₁ p₂ : ℚ) (t h : JsVal) (ha : a₁ ≤ a₂) (hp : p₁ ≤ p₂) :
    riskScore ⟨.num a₁, .num p₁, t, h⟩ ≤ riskScore ⟨.num a₂, .num p₂, t, h⟩
      ∧ (computeRisk ⟨.num a₁, .num p₁, t, h⟩).rank
        ≤ (computeRisk ⟨.num a₂, .num p₂, t, h⟩).rank := by
  have hscore : riskScore ⟨.num a₁, .num p₁, t, h⟩ ≤ riskScore ⟨.num a₂, .num p₂, t, h⟩ := by
    rw [riskScore_parts a₁ p₁, riskScore_parts a₂ p₂]
    have hA : (if 150 ≤ a₁ then 2 else if 100 ≤ a₁ then 1 else 0 : Nat)
        ≤ (if 150 ≤ a₂ then 2 else if 100 ≤ a₂ then 1 else 0) := by
      split_ifs <;> first | omega | (exfalso; linarith)
    have hP : (if 3 ≤ p₁ then 2 else if 2 ≤ p₁ then 1 else 0 : Nat)
        ≤ (if 3 ≤ p₂ then 2 else if 2 ≤ p₂ then 1 else 0) := by
      split_ifs <;> first | omega | (exfalso; linarith)
    omega
  exact ⟨hscore, rank_computeRisk_mono _ _ hscore⟩

/-- C26 at AQI 90 against 160 and pollen 1 against 3, with temperature 25 and
humidity 60: Low against High. -/
theorem computeRisk_monotone_witness :
    riskScore ⟨.num 90, .num 1, .num 25, .num 60⟩ ≤ riskScore ⟨.num 160, .num 3, .num 25, .num 60⟩
      ∧ (computeRisk ⟨.num 90, .num 1, .num 25, .num 60⟩).rank
        ≤ (computeRisk ⟨.num 160, .num 3, .num 25, .num 60⟩).rank :=
  computeRisk_monotone 90 160 1 3 (.num 25) (.num 60) (by norm_num) (by norm_num)

/-! ## The size of the peak lists and the totals of the two histograms -/

/-- The counters sum to one more after `pattern[i]++` with `i` in range. -/
theorem sum_bumpAt (l : List Nat) (i : Nat) (hi : i < l.length) :
    (bumpAt l i).sum = l.sum + 1 := by
  induction l generalizing i with
  | nil => simp at hi
  | cons c rest ih =>
    cases i with
    | zero => simp [bumpAt]; omega
    | succ i =>
      have hi' : i < rest.length := by simpa using hi
      simp [bumpAt, ih i hi']
      omega

/-- The counters after a loop of `pattern[f(log)]++` with every index in
range sum to the number of logs more than before. -/
theorem sum_foldl_bumpAt (f : SymptomLog → Nat) (logs : List SymptomLog) (init : List Nat)
    (hf : ∀ l, f l < init.length) :
    (logs.foldl (fun pattern log => bumpAt pattern (f log)) init).sum
      = init.sum + logs.length := by
  induction logs generalizing init with
  | nil => simp
  | cons l rest ih =>
    rw [List.foldl_cons, ih (bumpAt init (f l)) (by intro m; rw [length_bumpAt]; exact hf m),
      sum_bumpAt init (f l) (hf l), List.length_cons]
    omega

/-- The hours of the peak list are distinct. -/
theorem peakHours_nodup (clock : Clock) (logs : List SymptomLog) :
    ((peakHours clock logs).map (fun x => x.hour)).Nodup := by
  have hpw : (hourItems clock logs).Pairwise (fun x y => x.hour ≠ y.hour) :=
    (pairwise_mapWithIndex_hour _ 0).imp (fun h => Nat.ne_of_lt h)
  have hperm := List.perm_insertionSort (byCount HourStat.count) (hourItems clock logs)
  have hsorted : ((hourItems clock logs).insertionSort (byCount HourStat.count)).Pairwise
      (fun x y => x.hour ≠ y.hour) :=
    (hperm.pairwise_iff (fun {a b} (h : a.hour ≠ b.hour) => h.symm)).mpr hpw
  unfold peakHours List.Nodup
  rw [List.pairwise_map]
  exact hsorted.sublist (List.take_sublist 3 _)

/-- The days of the peak list are distinct. -/
theorem peakDays_nodup (clock : Clock) (logs : List SymptomLog) :
    ((peakDays clock logs).map (fun x => x.day)).Nodup := by
  have hpw : (dayItems clock logs).Pairwise (fun x y => x.day ≠ y.day) :=
    (pairwise_dayItems clock logs).imp (fun {a b} h hab => by
      rw [hab] at h
      exact Nat.lt_irrefl _ h)
  have hperm := List.perm_insertionSort (byCount DayStat.count) (dayItems clock logs)
  have hsorted : ((dayItems clock logs).insertionSort (byCount DayStat.count)).Pairwise
      (fun x y => x.day ≠ y.day) :=
    (hperm.pairwise_iff (fun {a b} (h : a.day ≠ b.day) => h.symm)).mpr hpw
  unfold peakDays List.Nodup
  rw [List.pairwise_map]
  exact hsorted.sublist (List.take_sublist 3 _)

/-- C27: for every history `peakHours` and `peakDays` have exactly 3 items, of
3 distinct buckets, each with the number of entries of its bucket (0 for a
bucket without entry); for the empty history they are the hours 0, 1, 2 and
Sunday, Monday, Tuesday, all with count 0; and the 24 hourly counters and the
7 daily counters each sum to the number of entries. -/
theorem peaks_three_items (clock : Clock) (logs : List SymptomLog) :
    (peakHours clock logs).length = 3
      ∧ (peakDays clock logs).length = 3
      ∧ ((peakHours clock logs).map (fun x => x.hour)).Nodup
      ∧ ((peakDays clock logs).map (fun x => x.day)).Nodup
      ∧ (∀ x ∈ peakHours clock logs, x.count = entriesAtHour clock logs x.hour)
      ∧ (∀ x ∈ peakDays clock logs,
          x.count = entriesOnDay clock logs (dayNames.indexOf x.day))
      ∧ peakHours clock [] = [⟨0, 0⟩, ⟨1, 0⟩, ⟨2, 0⟩]
      ∧ peakDays clock [] = [⟨"Sunday", 0⟩, ⟨"Monday", 0⟩, ⟨"Tuesday", 0⟩]
      ∧ (hourlyPattern clock logs).length = 24
      ∧ (hourlyPattern clock logs).sum = logs.length
      ∧ (dailyPattern clock logs).length = 7
      ∧ (dailyPattern clock logs).sum = logs.length := by
  have hpermH := List.perm_insertionSort (byCount HourStat.count) (hourItems clock logs)
  have hpermD := List.perm_insertionSort (byCount DayStat.count) (dayItems clock logs)
  refine ⟨?_, ?_, peakHours_nodup clock logs, peakDays_nodup clock logs, ?_, ?_, rfl, rfl,
    (hourlyPattern_spec clock logs).1, ?_, (dailyPattern_spec clock logs).1, ?_⟩
  · unfold peakHours hourItems
    rw [List.length_take, List.length_insertionSort, length_mapWithIndex,
      (hourlyPattern_spec clock logs).1]
    rfl
  · unfold peakDays dayItems
    rw [List.length_take, List.length_insertionSort, length_mapWithIndex]
    rfl
  · intro x hx
    exact ((mem_hourItems clock logs x).mp
      (hpermH.mem_iff.mp (List.mem_of_mem_take hx))).2
  · intro x hx
    exact ((mem_dayItems clock logs x).mp
      (hpermD.mem_iff.mp (List.mem_of_mem_take hx))).2
  · have := sum_foldl_bumpAt (fun l => (clock.getHours l.date : Nat)) logs
      (List.replicate 24 0) (by intro l; simp)
    simpa [hourlyPattern] using this
  · have := sum_foldl_bumpAt (fun l => (clock.getDay l.date : Nat)) logs
      (List.replicate 7 0) (by intro l; simp)
    simpa [dailyPattern] using this

/-! ## The pollen value that `fetchCurrentConditions` stores -/

/-- The estimate from the weather lies between 0 and 5 (it is at most 4),
whatever the temperature and the humidity. -/
theorem estimatePollenFromWeather_range (temperature humidity : JsVal) :
    0 ≤ estimatePollenFromWeather temperature humidity
      ∧ estimatePollenFromWeather temperature humidity ≤ 5 := by
  unfold estimatePollenFromWeather
  dsimp only
  generalize (temperature.isFalsy || humidity.isFalsy) = b0
  generalize (temperature.ge 15 && temperature.le 25) = b1
  generalize (temperature.gt 25 && temperature.le 30) = b2
  generalize (temperature.gt 30 || temperature.lt 10) = b3
  generalize (humidity.ge 30 && humidity.le 50) = b4
  generalize (humidity.gt 50 && humidity.le 70) = b5
  generalize humidity.gt 70 = b6
  cases b0 <;> cases b1 <;> cases b2 <;> cases b3 <;> cases b4 <;> cases b5 <;> cases b6 <;>
    norm_num

/-- The sum of the counts is rounded as the code rounds it: with the counts 8
and 0.9999999999999999 (the double 1 - 2^-53) the sum is the double 9 and the
pollen value exactly 3. -/
theorem pollenFromCounts_rounds :
    pollenFromCounts ⟨.num 8, .num (1 - 1 / 2 ^ 53), .num 0⟩ = 3 := by
  have hlog : Int.log 2 |(8 + (1 - 1 / 2 ^ 53) : ℚ)| = 3 := by
    rw [abs_of_pos (by norm_num)]
    exact log2_eq _ _ (by norm_num) (by norm_num)
  have hu : ulpExponent (8 + (1 - 1 / 2 ^ 53) : ℚ) = -49 := by
    unfold ulpExponent
    rw [hlog]
    norm_num
  have hf : ⌊(8 + (1 - 1 / 2 ^ 53) : ℚ) / (2 : ℚ) ^ (-49 : Int)⌋ = 5066549580791807 := by
    rw [Int.floor_eq_iff]
    norm_num
  have h9 : roundDouble (8 + (1 - 1 / 2 ^ 53) : ℚ) = 9 := by
    unfold roundDouble
    rw [hu]
    unfold roundHalfEven
    rw [hf]
    norm_num
  have h9' : roundDouble (9 : ℚ) = 9 := by
    simpa using roundDouble_natCast 9 (by norm_num)
  have h3 : roundDouble (3 : ℚ) = 3 := by
    simpa using roundDouble_natCast 3 (by norm_num)
  simp only [pollenFromCounts, JsVal.orZero, h9, add_zero, h9']
  norm_num [h3]

/-- C23, the code at the failing input: when the pollen source answers with
the counts 30, 0 and 0 the pollen value stored is 10, above 5; the same
weather with the pollen source failing stores the estimate 4. -/
theorem fetchCurrentConditions_pollen_above_5 :
    (fetchCurrentConditions (.ok ⟨.num 20, .num 50, .num 40⟩) true
        (.ok ⟨.num 30, .num 0, .num 0⟩)).1.pollen = .num 10
      ∧ ¬ ((10 : ℚ) ≤ 5)
      ∧ (fetchCurrentConditions (.ok ⟨.num 20, .num 50, .num 40⟩) true .failed).1.pollen
        = .num 4 := by
  refine ⟨?_, by norm_num, ?_⟩
  · have h30 : roundDouble (30 : ℚ) = 30 := by
      simpa using roundDouble_natCast 30 (by norm_num)
    have h10 : roundDouble (10 : ℚ) = 10 := by
      simpa using roundDouble_natCast 10 (by norm_num)
    norm_num [fetchCurrentConditions, pollenFromCounts, JsVal.orZero, h30, h10]
  · norm_num [fetchCurrentConditions, estimatePollenFromWeather, JsVal.orNull, JsVal.isFalsy,
      JsVal.ge, JsVal.le, JsVal.gt, JsVal.lt, JsVal.toNumber]

/-! ## Failed logins and the account lock -/

/-- A login with a wrong password throws and leaves the account as it was. -/
theorem login_wrong_password (compare : String → String → Bool) (now : Int)
    (password : String) (user : User) (h : compare password user.passwordHash = false) :
    login compare now password (some user) = .error .invalidCredentials
      ∧ accountAfterLogin compare now password (some user) = some user := by
  simp [accountAfterLogin, login, h]

/-- Any number of logins with a wrong password leaves the account as it was. -/
theorem accountAfterLogins_wrong_password (compare : String → String → Bool)
    (password : String) (times : List Int) (user : User)
    (h : compare password user.passwordHash = false) :
    accountAfterLogins compare password times (some user) = some user := by
  unfold accountAfterLogins
  induction times with
  | nil => rfl
  | cons t rest ih =>
    rw [List.foldl_cons, (login_wrong_password compare t password user h).2]
    exact ih

/-- C22, the code at the failing input: after five logins with a wrong
password on an account with no failed attempt and no lock, the account is as
before, `lockUntil` unset and `isLocked` false; `login` throws each time
without calling `incLoginAttempts`. Five calls of `incLoginAttempts` at the
same times would set `lockUntil` two hours after the fifth, and four would
not lock. -/
theorem login_never_locks :
    login plainCompare 4000 "wrong" (some freshAccount) = .error .invalidCredentials
      ∧ accountAfterLogins plainCompare "wrong" [0, 1000, 2000, 3000, 4000] (some freshAccount)
        = some freshAccount
      ∧ freshAccount.lockUntil = none
      ∧ freshAccount.isLocked 4001 = false
      ∧ ([0, 1000, 2000, 3000, 4000].foldl (fun u now => incLoginAttempts now u)
          freshAccount).lockUntil = some (4000 + 2 * 60 * 60 * 1000)
      ∧ ([0, 1000, 2000, 3000, 4000].foldl (fun u now => incLoginAttempts now u)
          freshAccount).isLocked 4001 = true
      ∧ ([0, 1000, 2000, 3000].foldl (fun u now => incLoginAttempts now u)
          freshAccount).isLocked 3001 = false := by
  refine ⟨?_, ?_, rfl, rfl, ?_, ?_, ?_⟩
  · exact (login_wrong_password plainCompare 4000 "wrong" freshAccount (by decide)).1
  · exact accountAfterLogins_wrong_password plainCompare "wrong" _ freshAccount (by decide)
  · decide
  · decide
  · decide

end ClimaAI
